import Mathlib

/-!
# Blog post API (`backend/src/cmd/api/main.go`)

A shallow embedding of the five post handlers, the CORS middleware and the
route registration of `main`, together with the parts of the libraries they
call: `strconv.Atoi`, the JSON binding of a request body into the `Post`
struct, the response writer of the web framework, and the SQL statements
against the single table `posts`.

The handlers are Go functions `func(c *gin.Context)` that also reach the
package-level variable `db`.  Here a handler is a function
`Context → Context`, where the context carries the request, the response
writer, the store `db` (threaded through, since it outlives the request) and
the environment of the request (`Env`: the clock of the store and whether
the driver fails).

What the model fixes about the libraries:

* every handler hands at most one statement to the driver; `Env.fault` says
  whether the driver fails on it (then the handler answers 500), and the
  statements about what a handler answers otherwise are stated for
  `fault = none`;
* the table holds rows of four columns, none of them NULL; `created_at` holds
  a text, for the rows this program inserts the text of `CURRENT_TIMESTAMP`;
  the column is declared DATETIME, so the driver reads the text as a time and
  `Scan` stores the RFC 3339 rendering of that time in the string field;
  rowids are integers without an upper bound (a table whose rowids are
  used up is a failure of the driver);
* a request body is given as the JSON value the decoder reads from it, or as
  the error of the decoder when it reads none;
* the `int` of the platform has 64 bits.
-/

deriving instance DecidableEq for Except

namespace Blog

/-! ## Data model -/

/-- The `Post` struct of the source: `ID`, `Title`, `Content`, `CreatedAt`. -/
structure Post where
  ID : Int
  Title : String
  Content : String
  CreatedAt : String
deriving DecidableEq, Repr

/-- The zero value of `Post` (`var post Post`). -/
def Post.zero : Post := ⟨0, "", "", ""⟩

/-- One row of the table `posts` created by `createDatabaseAndTable`:
`id INTEGER PRIMARY KEY AUTOINCREMENT, title TEXT NOT NULL,
content TEXT NOT NULL, created_at DATETIME DEFAULT CURRENT_TIMESTAMP`.
The timestamp is kept as the text the store holds and orders by. -/
structure Row where
  id : Int
  title : String
  content : String
  created_at : String
deriving DecidableEq, Repr

/-- A reading of the clock of the store, the value of `CURRENT_TIMESTAMP`. -/
structure Timestamp where
  year : Nat
  month : Nat
  day : Nat
  hour : Nat
  minute : Nat
  second : Nat
deriving DecidableEq, Repr

/-- Two decimal digits of `n`, zero padded. -/
def pad2 (n : Nat) : List Char :=
  [Nat.digitChar (n / 10 % 10), Nat.digitChar (n % 10)]

/-- Four decimal digits of `n`, zero padded. -/
def pad4 (n : Nat) : List Char :=
  [Nat.digitChar (n / 1000 % 10), Nat.digitChar (n / 100 % 10),
   Nat.digitChar (n / 10 % 10), Nat.digitChar (n % 10)]

/-- The characters of `CURRENT_TIMESTAMP`: `YYYY-MM-DD HH:MM:SS`. -/
def Timestamp.chars (t : Timestamp) : List Char :=
  pad4 t.year ++ '-' :: pad2 t.month ++ '-' :: pad2 t.day ++ ' ' ::
    pad2 t.hour ++ ':' :: pad2 t.minute ++ ':' :: pad2 t.second

/-- The text of `CURRENT_TIMESTAMP` as stored in the column `created_at`. -/
def Timestamp.text (t : Timestamp) : String := String.mk t.chars

/-- Whether the year is a leap year. -/
def isLeap (year : Nat) : Bool :=
  year % 4 = 0 ∧ (year % 100 ≠ 0 ∨ year % 400 = 0)

/-- The number of days of the month in the year. -/
def daysIn (month year : Nat) : Nat :=
  if month = 2 then (if isLeap year then 29 else 28)
  else if month = 4 ∨ month = 6 ∨ month = 9 ∨ month = 11 then 30
  else 31

/-- Whether the six numbers are a date and a time of day, with a year of four
digits: what the clock of the store can show and the driver can read. -/
def Timestamp.valid (t : Timestamp) : Bool :=
  t.year ≤ 9999 ∧ 1 ≤ t.month ∧ t.month ≤ 12 ∧ 1 ≤ t.day ∧ t.day ≤ daysIn t.month t.year ∧
    t.hour < 24 ∧ t.minute < 60 ∧ t.second < 60

/-- The value of a decimal digit. -/
def digitValue (ch : Char) : Nat := ch.toNat - '0'.toNat

/-- The six numbers of a text of the layout `2006-01-02 15:04:05`, the layout of
`CURRENT_TIMESTAMP` among those the driver tries on a DATETIME column. -/
def parseDatetime : List Char → Option Timestamp
  | [y1, y2, y3, y4, c1, m1, m2, c2, d1, d2, c3, h1, h2, c4, n1, n2, c5, s1, s2] =>
    if c1 = '-' ∧ c2 = '-' ∧ c3 = ' ' ∧ c4 = ':' ∧ c5 = ':' ∧
        [y1, y2, y3, y4, m1, m2, d1, d2, h1, h2, n1, n2, s1, s2].all Char.isDigit = true then
      some
        { year := digitValue y1 * 1000 + digitValue y2 * 100 + digitValue y3 * 10 + digitValue y4,
          month := digitValue m1 * 10 + digitValue m2,
          day := digitValue d1 * 10 + digitValue d2,
          hour := digitValue h1 * 10 + digitValue h2,
          minute := digitValue n1 * 10 + digitValue n2,
          second := digitValue s1 * 10 + digitValue s2 }
    else none
  | _ => none

/-- The characters of the RFC 3339 rendering of a time in UTC without a
fraction of a second: `YYYY-MM-DDTHH:MM:SSZ`. -/
def Timestamp.rfc3339Chars (t : Timestamp) : List Char :=
  pad4 t.year ++ '-' :: pad2 t.month ++ '-' :: pad2 t.day ++ 'T' ::
    pad2 t.hour ++ ':' :: pad2 t.minute ++ ':' :: pad2 t.second ++ ['Z']

/-- The RFC 3339 rendering of a time in UTC. -/
def Timestamp.rfc3339 (t : Timestamp) : String := String.mk t.rfc3339Chars

/-- The RFC 3339 rendering of the zero time. -/
def zeroTime : String := "0001-01-01T00:00:00Z"

/-- What `Scan` stores in the string field `CreatedAt` for the text of the
DATETIME column `created_at`: the driver reads the text as a time in UTC, the
zero time when the text is no time, and the time is stored in its RFC 3339
rendering.  (Of the layouts the driver tries only the one of
`CURRENT_TIMESTAMP` is read here: this program stores no other.) -/
def scanDatetime (text : String) : String :=
  match parseDatetime text.data with
  | some t => if t.valid then t.rfc3339 else zeroTime
  | none => zeroTime

/-- Whether the text is a timestamp as the store assigns it: a valid date and
time of day in the layout of `CURRENT_TIMESTAMP`. -/
def isTimestampText (text : String) : Bool :=
  match parseDatetime text.data with
  | some t => t.valid
  | none => false

/-! ## The store -/

/-- The statements the handlers pass to `db.Exec`. -/
inductive ExecStmt
  /-- The statement `INSERT INTO posts (title, content) VALUES (?, ?)` -/
  | insertPost (title content : String)
  /-- The statement `UPDATE posts SET title = ?, content = ? WHERE id = ?` -/
  | updatePost (title content : String) (id : Int)
  /-- The statement `DELETE FROM posts WHERE id = ?` -/
  | deletePost (id : Int)
deriving DecidableEq, Repr

/-- The statements the handlers pass to `db.Query` and `db.QueryRow`. -/
inductive QueryStmt
  /-- The statement `SELECT id, title, content, created_at FROM posts ORDER BY created_at DESC` -/
  | selectAll
  /-- The statement `SELECT id, title, content, created_at FROM posts WHERE id = ?` -/
  | selectById (id : Int)
deriving DecidableEq, Repr

/-- A statement handed to the driver. -/
inductive Statement
  | exec (s : ExecStmt)
  | query (q : QueryStmt)
deriving DecidableEq, Repr

/-- The store behind the package-level `db`: the rows of `posts` in scan
order, the AUTOINCREMENT counter of the table (the largest rowid ever
assigned), and the statements handed to the driver so far, oldest first. -/
structure DB where
  posts : List Row
  seq : Nat
  log : List Statement
deriving DecidableEq, Repr

/-- The store `createDatabaseAndTable` sets up: the table `posts` without rows,
its AUTOINCREMENT counter at zero. -/
def createDatabaseAndTable : DB := ⟨[], 0, []⟩

/-- What the handlers cannot control while a request is served: the clock of
the store, and the failure (if any) of the driver on the statement of the
request: connection lost, I/O error, missing table, no rowid left. -/
structure Env where
  now : Timestamp
  fault : Option String
deriving DecidableEq, Repr

/-- The largest rowid among the rows (0 when there is none above 0). -/
def maxRowid (rows : List Row) : Int :=
  rows.foldr (fun r m => max r.id m) 0

/-- The rowid AUTOINCREMENT gives the next inserted row: one more than the
largest rowid that ever existed in the table. -/
def DB.nextRowid (db : DB) : Int :=
  max (db.seq : Int) (maxRowid db.posts) + 1

/-- Comparison of two texts (`a ≤ b`) character by character, a text sorting
before every text it is a proper initial part of: the order in which the
store compares TEXT values (the order of the code points is the order of
their UTF-8 bytes). -/
def textLe : List Char → List Char → Bool
  | [], _ => true
  | _ :: _, [] => false
  | a :: as, b :: bs =>
    if a.toNat < b.toNat then true
    else if b.toNat < a.toNat then false
    else textLe as bs

/-- The relation `a` sorts no later than `b` under `ORDER BY created_at DESC`. -/
def createdAtGE (a b : Row) : Prop :=
  textLe b.created_at.data a.created_at.data = true

instance createdAtGE.decidable : DecidableRel createdAtGE :=
  fun a b => inferInstanceAs (Decidable (textLe b.created_at.data a.created_at.data = true))

/-- The rows in the order of `ORDER BY created_at DESC`.  SQL leaves the order
of rows with the same `created_at` open; here, as in the store, they keep
their scan order. -/
def orderByCreatedAtDesc (rows : List Row) : List Row :=
  rows.insertionSort createdAtGE

/-- The result of a successful `db.Exec`. -/
structure ExecResult where
  lastInsertId : Int
  rowsAffected : Nat
deriving DecidableEq, Repr

/-- The effect of a write statement on the table. -/
def ExecStmt.apply (now : Timestamp) (db : DB) : ExecStmt → DB × ExecResult
  | .insertPost title content =>
    let id := db.nextRowid
    ({ db with posts := db.posts ++ [⟨id, title, content, now.text⟩], seq := id.toNat },
     ⟨id, 1⟩)
  | .updatePost title content id =>
    ({ db with posts := db.posts.map fun r =>
        if r.id = id then { r with title := title, content := content } else r },
     ⟨0, (db.posts.filter fun r => r.id = id).length⟩)
  | .deletePost id =>
    ({ db with posts := db.posts.filter fun r => r.id ≠ id },
     ⟨0, (db.posts.filter fun r => r.id = id).length⟩)

/-- The rows a read statement returns. -/
def QueryStmt.rows (db : DB) : QueryStmt → List Row
  | .selectAll => orderByCreatedAtDesc db.posts
  | .selectById id => db.posts.filter fun r => r.id = id

/-- The call `db.Exec`: the statement is handed to the driver; when the driver
fails the table is left as it was. -/
def Exec (env : Env) (db : DB) (s : ExecStmt) : DB × Except String ExecResult :=
  let db := { db with log := db.log ++ [.exec s] }
  match env.fault with
  | some e => (db, .error e)
  | none => ((s.apply env.now db).1, .ok (s.apply env.now db).2)

/-- The call `db.Query`: the rows of a read statement, or the failure of the driver. -/
def Query (env : Env) (db : DB) (q : QueryStmt) : DB × Except String (List Row) :=
  let db := { db with log := db.log ++ [.query q] }
  match env.fault with
  | some e => (db, .error e)
  | none => (db, .ok (q.rows db))

/-- The outcome of `row.Scan` on a `*sql.Row`. -/
inductive ScanError
  | noRows
  | other (msg : String)
deriving DecidableEq, Repr

/-- The call `rows.Scan(&post.ID, &post.Title, &post.Content, &post.CreatedAt)`:
the columns of the current row are stored in the struct, `id`, `title` and
`content` as they are, the DATETIME column `created_at` as `scanDatetime` has
it. -/
def scanRow (r : Row) : Except String Post :=
  .ok ⟨r.id, r.title, r.content, scanDatetime r.created_at⟩

/-- The call `db.QueryRow(...)` followed by `row.Scan(...)`: the first row of
the result, `sql.ErrNoRows` when the result is empty, the failure of the
driver otherwise. -/
def QueryRowScan (env : Env) (db : DB) (q : QueryStmt) : DB × Except ScanError Post :=
  match Query env db q with
  | (db, .error e) => (db, .error (.other e))
  | (db, .ok []) => (db, .error .noRows)
  | (db, .ok (r :: _)) =>
    match scanRow r with
    | .ok p => (db, .ok p)
    | .error e => (db, .error (.other e))

/-- The call `result.LastInsertId()`: the driver returns the rowid of the
inserted row and never an error. -/
def ExecResult.LastInsertId (r : ExecResult) : Except String Int :=
  .ok r.lastInsertId

/-! ## `strconv.Atoi` -/

/-- The largest `int` of the platform (64 bit). -/
def maxInt : Int := 9223372036854775807

/-- The smallest `int` of the platform (64 bit). -/
def minInt : Int := -9223372036854775808

/-- The two errors of `strconv`: `ErrSyntax` and `ErrRange`. -/
inductive NumError
  | invalidSyntax
  | outOfRange
deriving DecidableEq, Repr

/-- The value of a run of decimal digits, read left to right from the
accumulator `n`; `none` at the first byte that is not a digit. -/
def parseDigits : List Char → Nat → Option Nat
  | [], n => some n
  | ch :: rest, n =>
    if ch.isDigit then parseDigits rest (n * 10 + (ch.toNat - '0'.toNat)) else none

/-- The function `strconv.Atoi`: an optional sign, then at least one decimal
digit and nothing else; the value must fit the `int` type. -/
def Atoi (s : String) : Except NumError Int :=
  let signed : Bool × List Char :=
    match s.data with
    | '-' :: rest => (true, rest)
    | '+' :: rest => (false, rest)
    | cs => (false, cs)
  match signed.2 with
  | [] => .error .invalidSyntax
  | ds =>
    match parseDigits ds 0 with
    | none => .error .invalidSyntax
    | some n =>
      let v : Int := if signed.1 then -(n : Int) else (n : Int)
      if minInt ≤ v ∧ v ≤ maxInt then .ok v else .error .outOfRange

/-! ## JSON binding of the request body -/

/-- A JSON value as the decoder sees it. -/
inductive Json
  | null
  | bool (b : Bool)
  /-- a number literal without fraction or exponent -/
  | int (n : Int)
  /-- a number literal with a fraction or an exponent -/
  | float (literal : String)
  | str (s : String)
  | arr (items : List Json)
  | obj (members : List (String × Json))

/-- The body of a request as the JSON decoder reads it: either it holds no
JSON value (empty body, broken syntax), or its first JSON value. -/
inductive ReqBody
  | invalid (err : String)
  | json (v : Json)

/-- The Go name of the kind of a JSON value, for error messages. -/
def Json.kind : Json → String
  | .null => "null"
  | .bool _ => "bool"
  | .int _ => "number"
  | .float _ => "number"
  | .str _ => "string"
  | .arr _ => "array"
  | .obj _ => "object"

/-- Whether the member key `key` names the struct field tagged `tag`: the
decoder matches keys without regard to case.  (The four tags of `Post` are
ASCII and hold neither `k` nor `s`, the two letters with a fold outside
ASCII, so the ASCII fold is the fold of the decoder.) -/
def keyMatches (tag key : String) : Bool :=
  key.data.map Char.toLower == tag.data.map Char.toLower

/-- The message of a `json.UnmarshalTypeError` on a field of `Post`; `value`
describes the JSON value that does not fit. -/
def typeError (value field goType : String) : String :=
  "json: cannot unmarshal " ++ value ++ " into Go struct field Post." ++ field ++
    " of type " ++ goType

/-- Decoding of a member value into a `string` field: `null` leaves the field
as it is, a string sets it, any other value is a type error. -/
def decodeString (field : String) (old : String) : Json → Except String String
  | .null => .ok old
  | .str s => .ok s
  | v => .error (typeError v.kind field "string")

/-- Decoding of a member value into the `int` field: `null` leaves the field as
it is, an integer literal that fits `int` sets it, any other value is a type
error; the error of a number names its literal. -/
def decodeInt (field : String) (old : Int) : Json → Except String Int
  | .null => .ok old
  | .int n =>
    if minInt ≤ n ∧ n ≤ maxInt then .ok n
    else .error (typeError ("number " ++ toString n) field "int")
  | .float literal => .error (typeError ("number " ++ literal) field "int")
  | v => .error (typeError v.kind field "int")

/-- One member of the body object decoded into the struct, by the `json` tags
of `Post`: `id`, `title`, `content`, `created_at`.  Unknown keys are skipped. -/
def decodeMember (post : Post) (key : String) (v : Json) : Except String Post :=
  if keyMatches "id" key then
    (decodeInt "id" post.ID v).map fun n => { post with ID := n }
  else if keyMatches "title" key then
    (decodeString "title" post.Title v).map fun s => { post with Title := s }
  else if keyMatches "content" key then
    (decodeString "content" post.Content v).map fun s => { post with Content := s }
  else if keyMatches "created_at" key then
    (decodeString "created_at" post.CreatedAt v).map fun s => { post with CreatedAt := s }
  else .ok post

/-- The members of the body object decoded one after another; a later member
overwrites an earlier one of the same field, and the first member that does
not fit its field makes the decoding fail. -/
def decodeMembers : List (String × Json) → Post → Except String Post
  | [], post => .ok post
  | (key, v) :: rest, post =>
    match decodeMember post key v with
    | .ok post => decodeMembers rest post
    | .error e => .error e

/-- Decoding of the first JSON value of the body into a `Post`
(`json.Decoder.Decode`): `null` leaves the struct as it is, an object fills
the tagged fields, any other value is a type error. -/
def decodeJSON (post : Post) : ReqBody → Except String Post
  | .invalid e => .error e
  | .json .null => .ok post
  | .json (.obj members) => decodeMembers members post
  | .json v => .error ("json: cannot unmarshal " ++ v.kind ++ " into Go value of type main.Post")

/-- The validation the framework runs after decoding: it checks the `binding`
tags of the struct, and `Post` has none. -/
def validate (_post : Post) : Except String Unit := .ok ()

/-- The binding of a request body into `post` (`ShouldBindWith` with the JSON
binding): decoding, then validation. -/
def ShouldBindJSON (post : Post) (body : ReqBody) : Except String Post :=
  match decodeJSON post body with
  | .error e => .error e
  | .ok post =>
    match validate post with
    | .error e => .error e
    | .ok () => .ok post

/-! ## The request context and the response writer -/

/-- A value written to the response body. -/
inductive Body
  /-- the JSON object with the single key `error` (`gin.H`) -/
  | error (msg : String)
  /-- a `Post` as a JSON object -/
  | post (p : Post)
  /-- the JSON value `null` -/
  | null
  /-- a JSON array of posts -/
  | posts (ps : List Post)
  /-- plain text -/
  | text (s : String)
deriving DecidableEq, Repr

/-- The state a handler works on: the request, the response writer (`status`,
`header`, `body`, `written`, and `sent`, the header as it stood when the
status line was flushed to the client), the abort flag of the handler chain,
and the package-level store with the environment of this request. -/
structure Context where
  method : String
  path : String
  params : List (String × String)
  reqBody : ReqBody
  status : Nat
  header : List (String × String)
  body : List Body
  written : Bool
  sent : List (String × String)
  aborted : Bool
  db : DB
  env : Env

/-- The context the engine hands to the handler chain for a new request: status
200, no header, nothing written. -/
def Context.new (db : DB) (env : Env) (method path : String) (reqBody : ReqBody) : Context :=
  { method := method, path := path, params := [], reqBody := reqBody,
    status := 200, header := [], body := [], written := false, sent := [], aborted := false,
    db := db, env := env }

/-- The call `c.Param(key)`: the value of the path parameter, the empty text
when there is none. -/
def Context.Param (c : Context) (key : String) : String :=
  match c.params.find? fun kv => kv.1 = key with
  | some kv => kv.2
  | none => ""

/-- The value of a header of the response, if set. -/
def Context.getHeader (c : Context) (key : String) : Option String :=
  (c.header.find? fun kv => kv.1 = key).map fun kv => kv.2

/-- The call `c.Writer.Header().Set(key, value)`: the header is replaced. -/
def Context.setHeader (c : Context) (key value : String) : Context :=
  { c with header := (key, value) :: c.header.filter fun kv => kv.1 ≠ key }

/-- The call `c.Status(code)`: the status of the response, which can no longer
change once the header is written. -/
def Context.Status (c : Context) (code : Nat) : Context :=
  { c with
    status := if 0 < code ∧ c.status ≠ code ∧ c.written = false then code else c.status }

/-- The call `c.Writer.WriteHeaderNow()`: the status line and the header are
flushed, if they were not yet. -/
def Context.WriteHeaderNow (c : Context) : Context :=
  { c with written := true, sent := if c.written then c.sent else c.header }

/-- The value of a header of the response as it was flushed to the client. -/
def Context.sentHeader (c : Context) (key : String) : Option String :=
  (c.sent.find? fun kv => kv.1 = key).map fun kv => kv.2

/-- The call `c.Writer.Write(data)`: the header is flushed if it was not, and
the data is appended to the body. -/
def Context.Write (c : Context) (data : Body) : Context :=
  { c.WriteHeaderNow with body := c.body ++ [data] }

/-- The content type is written unless one is set. -/
def Context.writeContentType (c : Context) (value : String) : Context :=
  { c with header :=
      match c.getHeader "Content-Type" with
      | some _ => c.header
      | none => (c.setHeader "Content-Type" value).header }

/-- Whether a response of this status may carry a body. -/
def bodyAllowedForStatus (status : Nat) : Bool :=
  if 100 ≤ status ∧ status ≤ 199 then false
  else if status = 204 then false
  else if status = 304 then false
  else true

/-- The call `c.JSON(code, obj)`: the status is set and the content type
written; the object is written as JSON when the status allows a body,
otherwise only the header is flushed. -/
def Context.JSON (c : Context) (code : Nat) (obj : Body) : Context :=
  let c := (c.Status code).writeContentType "application/json; charset=utf-8"
  if bodyAllowedForStatus code then c.Write obj else c.WriteHeaderNow

/-- The call `c.Abort()`: the handlers still pending in the chain are not called. -/
def Context.Abort (c : Context) : Context :=
  { c with aborted := true }

/-- The call `c.AbortWithStatus(code)`: status, flush, abort. -/
def Context.AbortWithStatus (c : Context) (code : Nat) : Context :=
  ((c.Status code).WriteHeaderNow).Abort

/-- The call `c.BindJSON(&post)`: the body is bound into `post`; on failure the
request is aborted with status 400 and the error is returned. -/
def Context.BindJSON (c : Context) (post : Post) : Context × Except String Post :=
  match ShouldBindJSON post c.reqBody with
  | .error e => (c.AbortWithStatus 400, .error e)
  | .ok post => (c, .ok post)

/-! ## The handlers -/

/-- A Go slice of posts: `none` is the nil slice of `var posts []Post`. -/
abbrev PostSlice := Option (List Post)

/-- The call `append(posts, post)`. -/
def appendPost : PostSlice → Post → PostSlice
  | none, p => some [p]
  | some ps, p => some (ps ++ [p])

/-- The JSON encoding of a slice of posts: a nil slice is encoded as `null`,
any other slice as an array. -/
def marshalPosts : PostSlice → Body
  | none => .null
  | some ps => .posts ps

/-- The loop `for rows.Next()` of `getPosts`: each row is scanned and appended
to `posts`; a failing scan ends the loop with its error. -/
def scanRows : List Row → PostSlice → Except String PostSlice
  | [], posts => .ok posts
  | r :: rest, posts =>
    match scanRow r with
    | .error e => .error e
    | .ok post => scanRows rest (appendPost posts post)

/-- Handler `getPosts` (`GET /api/posts`). -/
def getPosts (c : Context) : Context :=
  match Query c.env c.db .selectAll with
  | (db, .error e) => { c with db := db }.JSON 500 (.error e)
  | (db, .ok rows) =>
    let c := { c with db := db }
    match scanRows rows none with
    | .error e => c.JSON 500 (.error e)
    | .ok posts => c.JSON 200 (marshalPosts posts)

/-- Handler `getPost` (`GET /api/posts/:id`). -/
def getPost (c : Context) : Context :=
  match Atoi (c.Param "id") with
  | .error _ => c.JSON 400 (.error "Invalid post ID")
  | .ok id =>
    match QueryRowScan c.env c.db (.selectById id) with
    | (db, .error .noRows) => { c with db := db }.JSON 404 (.error "Post not found")
    | (db, .error (.other e)) => { c with db := db }.JSON 500 (.error e)
    | (db, .ok post) => { c with db := db }.JSON 200 (.post post)

/-- Handler `createPost` (`POST /api/posts`). -/
def createPost (c : Context) : Context :=
  match c.BindJSON Post.zero with
  | (c, .error e) => c.JSON 400 (.error e)
  | (c, .ok post) =>
    match Exec c.env c.db (.insertPost post.Title post.Content) with
    | (db, .error e) => { c with db := db }.JSON 500 (.error e)
    | (db, .ok result) =>
      let c := { c with db := db }
      match result.LastInsertId with
      | .error e => c.JSON 500 (.error e)
      | .ok id => c.JSON 201 (.post { post with ID := id })

/-- Handler `updatePost` (`PUT /api/posts/:id`). -/
def updatePost (c : Context) : Context :=
  match Atoi (c.Param "id") with
  | .error _ => c.JSON 400 (.error "Invalid post ID")
  | .ok id =>
    match c.BindJSON Post.zero with
    | (c, .error e) => c.JSON 400 (.error e)
    | (c, .ok post) =>
      match Exec c.env c.db (.updatePost post.Title post.Content id) with
      | (db, .error e) => { c with db := db }.JSON 500 (.error e)
      | (db, .ok _) => { c with db := db }.JSON 200 (.post { post with ID := id })

/-- Handler `deletePost` (`DELETE /api/posts/:id`). -/
def deletePost (c : Context) : Context :=
  match Atoi (c.Param "id") with
  | .error _ => c.JSON 400 (.error "Invalid post ID")
  | .ok id =>
    match Exec c.env c.db (.deletePost id) with
    | (db, .error e) => { c with db := db }.JSON 500 (.error e)
    | (db, .ok _) => { c with db := db }.JSON 204 .null

/-! ## The middleware and the routes of `main` -/

/-- The value of the header `Access-Control-Allow-Headers`. -/
def allowHeaders : String :=
  "Content-Type, Content-Length, Accept-Encoding, X-CSRF-Token, Authorization, accept, origin, Cache-Control, X-Requested-With"

/-- The four header assignments at the start of `CORSMiddleware`. -/
def setCORSHeaders (c : Context) : Context :=
  (((c.setHeader "Access-Control-Allow-Origin" "*").setHeader
      "Access-Control-Allow-Credentials" "true").setHeader
      "Access-Control-Allow-Headers" allowHeaders).setHeader
      "Access-Control-Allow-Methods" "POST, OPTIONS, GET, PUT, DELETE"

/-- The handler returned by `CORSMiddleware()`; `next` stands for `c.Next()`,
the rest of the handler chain. -/
def CORSMiddleware (next : Context → Context) (c : Context) : Context :=
  let c := setCORSHeaders c
  if c.method = "OPTIONS" then c.AbortWithStatus 204
  else next c

/-- The two middlewares of `gin.Default()`, logger and recovery: they call the
rest of the chain and write neither to the response nor to the store. -/
def defaultMiddleware (next : Context → Context) (c : Context) : Context :=
  next c

/-- The shape of a registered path. -/
inductive Pattern
  /-- a fixed path such as `/api/posts` -/
  | fixed (path : String)
  /-- a fixed lead followed by one parameter segment, `/api/posts/:id` -/
  | param (lead key : String)

/-- The rest of `path` after the leading `lead`, if `path` starts with it. -/
def stripLead : List Char → List Char → Option (List Char)
  | [], rest => some rest
  | _ :: _, [] => none
  | p :: ps, ch :: cs => if p = ch then stripLead ps cs else none

/-- The parameters under which `path` matches the pattern: a parameter segment
is not empty and holds no slash. -/
def Pattern.params (path : String) : Pattern → Option (List (String × String))
  | .fixed p => if path = p then some [] else none
  | .param lead key =>
    match stripLead lead.data path.data with
    | none => none
    | some seg =>
      if seg ≠ [] ∧ '/' ∉ seg then some [(key, String.mk seg)] else none

/-- The routes registered by `main`, one tree per method. -/
def trees : List (String × List (Pattern × (Context → Context))) :=
  [("GET", [(.fixed "/api/posts", getPosts), (.param "/api/posts/" "id", getPost)]),
   ("POST", [(.fixed "/api/posts", createPost)]),
   ("PUT", [(.param "/api/posts/" "id", updatePost)]),
   ("DELETE", [(.param "/api/posts/" "id", deletePost)])]

/-- The result of looking a path up in the tree of a method. -/
inductive Lookup
  /-- a route matches: its handler and the path parameters -/
  | found (handler : Context → Context) (params : List (String × String))
  /-- no route matches, but one does without the trailing slash -/
  | trailingSlash (target : String)
  | miss

/-- The first route of the tree matching the path. -/
def findRoute (path : String) : List (Pattern × (Context → Context)) →
    Option ((Context → Context) × List (String × String))
  | [] => none
  | (pat, h) :: rest =>
    match pat.params path with
    | some ps => some (h, ps)
    | none => findRoute path rest

/-- The lookup of a path in the tree of a method.  The redirect applies when the
path ends in a slash and matches a route without it (no registered path
ends in a slash). -/
def getValue (tree : List (Pattern × (Context → Context))) (path : String) : Lookup :=
  match findRoute path tree with
  | some (h, ps) => .found h ps
  | none =>
    match path.data.reverse with
    | '/' :: rest =>
      let target := String.mk rest.reverse
      if rest ≠ [] ∧ (findRoute target tree).isSome then .trailingSlash target else .miss
    | _ => .miss

/-- The answer when no route matches: status 404, the middlewares of the
engine run, and unless one of them has written the response the default body
follows. -/
def serveError (c : Context) : Context :=
  let c := { c with status := 404 }
  let c := defaultMiddleware (CORSMiddleware fun c => c) c
  if c.written then c
  else if c.status = 404 then
    (c.setHeader "Content-Type" "text/plain").Write (.text "404 page not found")
  else c.WriteHeaderNow

/-- The redirect to the path without its trailing slash, sent without running
any handler: 301 for GET, 307 otherwise.  Only the status and the location
are kept of it. -/
def redirectTrailingSlash (c : Context) (target : String) : Context :=
  ((c.setHeader "Location" target).Status (if c.method = "GET" then 301 else 307)).WriteHeaderNow

/-- The dispatch of a request by the engine `main` builds: the tree of the
method is searched for the path; a matching route runs the middlewares and
then its handler; a method without a tree or a path without a route is
answered by `serveError`. -/
def handleHTTPRequest (c : Context) : Context :=
  match trees.find? fun t => t.1 = c.method with
  | some (_, tree) =>
    match getValue tree c.path with
    | .found h ps => (defaultMiddleware (CORSMiddleware h) { c with params := ps }).WriteHeaderNow
    | .trailingSlash target => redirectTrailingSlash c target
    | .miss => serveError c
  | none => serveError c

/-- The engine serving one request against the store `db`. -/
def serve (db : DB) (env : Env) (method path : String) (reqBody : ReqBody) : Context :=
  handleHTTPRequest (Context.new db env method path reqBody)

/-! ## Derived notions used in the statements -/

/-- The environment of a request served on 2025-04-01 at the given time of the
clock of the store, with a driver that does not fail. -/
def clock (hour minute second : Nat) : Env :=
  ⟨⟨2025, 4, 1, hour, minute, second⟩, none⟩

/-- The body of a request that carries none. -/
def noBody : ReqBody := .invalid "EOF"

/-- The body of the scenario of the specification: title `Hello`, content
`World`. -/
def helloWorld : ReqBody :=
  .json (.obj [("title", .str "Hello"), ("content", .str "World")])

/-- The store after the scenario's Create request on the empty store. -/
def storeHello : DB :=
  ⟨[⟨1, "Hello", "World", "2025-04-01 09:30:00"⟩], 1, [.exec (.insertPost "Hello" "World")]⟩

/-- A store holding two posts created one minute apart. -/
def storeTwo : DB :=
  ⟨[⟨1, "Hello", "World", "2025-04-01 09:30:00"⟩,
    ⟨2, "Second", "Post", "2025-04-01 09:31:00"⟩], 2, []⟩

/-- The context as the route `/api/posts/:id` hands it to its handler: the path
parameter `id` is set. -/
def Context.withId (c : Context) (id : String) : Context :=
  { c with params := [("id", id)] }

/-- The store after the insert of `createPost`. -/
def insertedDB (db : DB) (now : Timestamp) (post : Post) : DB :=
  { posts := db.posts ++ [⟨db.nextRowid, post.Title, post.Content, now.text⟩],
    seq := db.nextRowid.toNat,
    log := db.log ++ [.exec (.insertPost post.Title post.Content)] }

/-- The store after a statement of `db.Query` or `db.QueryRow`: only the log of
the driver grows. -/
def queriedDB (db : DB) (q : QueryStmt) : DB :=
  { posts := db.posts, seq := db.seq, log := db.log ++ [.query q] }

/-- The store after the update of `updatePost`. -/
def updatedDB (db : DB) (id : Int) (post : Post) : DB :=
  { posts := db.posts.map fun r =>
      if r.id = id then { r with title := post.Title, content := post.Content } else r,
    seq := db.seq,
    log := db.log ++ [.exec (.updatePost post.Title post.Content id)] }

/-- The store after the delete of `deletePost`. -/
def deletedDB (db : DB) (id : Int) : DB :=
  { posts := db.posts.filter fun r => r.id ≠ id,
    seq := db.seq,
    log := db.log ++ [.exec (.deletePost id)] }

/-- The post a row is scanned into. -/
def postOfRow (r : Row) : Post := ⟨r.id, r.title, r.content, scanDatetime r.created_at⟩

/-- The slice the loop of `getPosts` builds from the scanned posts: the nil slice
when there is none. -/
def sliceOf : List Post → PostSlice
  | [] => none
  | p :: ps => some (p :: ps)

/-- The store after a sequence of Create requests served one after another,
each with its own reading of the clock. -/
def createAll (db : DB) : List (Env × ReqBody) → DB
  | [] => db
  | (env, body) :: rest =>
    createAll (createPost (Context.new db env "POST" "/api/posts" body)).db rest

/-! ## The response writer -/

theorem Context.JSON_db (c : Context) (code : Nat) (obj : Body) :
    (c.JSON code obj).db = c.db := by
  unfold Context.JSON; split <;> rfl

theorem Context.JSON_body (c : Context) (code : Nat) (obj : Body) :
    (c.JSON code obj).body = if bodyAllowedForStatus code then c.body ++ [obj] else c.body := by
  unfold Context.JSON; split <;> rfl

/-- The status of `c.JSON(code, obj)` is `code` when nothing was written before. -/
theorem Context.JSON_status (c : Context) (code : Nat) (obj : Body)
    (hw : c.written = false) (hc : 0 < code) : (c.JSON code obj).status = code := by
  have h : (c.Status code).status = code := by
    simp only [Context.Status]
    split
    · rfl
    · rename_i h; simp only [hw, and_true, not_and, not_not] at h; exact h hc
  unfold Context.JSON; split <;> exact h

theorem maxRowid_nonneg (rows : List Row) : 0 ≤ maxRowid rows := by
  induction rows with
  | nil => simp [maxRowid]
  | cons r rest ih =>
    simp only [maxRowid, List.foldr_cons] at ih ⊢
    exact le_max_of_le_right ih

theorem le_maxRowid (rows : List Row) (r : Row) (h : r ∈ rows) : r.id ≤ maxRowid rows := by
  induction rows with
  | nil => simp at h
  | cons a rest ih =>
    simp only [maxRowid, List.foldr_cons] at ih ⊢
    rcases List.mem_cons.mp h with rfl | h
    · exact le_max_left _ _
    · exact le_max_of_le_right (ih h)

/-- The rowid given to an inserted row is at least 1. -/
theorem DB.one_le_nextRowid (db : DB) : 1 ≤ db.nextRowid := by
  have h := maxRowid_nonneg db.posts
  have h2 : maxRowid db.posts ≤ max (db.seq : Int) (maxRowid db.posts) := le_max_right _ _
  unfold DB.nextRowid
  omega

/-- The rowid given to an inserted row is above every rowid in the table. -/
theorem DB.lt_nextRowid (db : DB) (r : Row) (h : r ∈ db.posts) : r.id < db.nextRowid := by
  have h1 := le_maxRowid db.posts r h
  have h2 : maxRowid db.posts ≤ max (db.seq : Int) (maxRowid db.posts) := le_max_right _ _
  unfold DB.nextRowid
  omega

theorem filter_id_eq_nil (rows : List Row) (id : Int) (h : ∀ r ∈ rows, r.id ≠ id) :
    (rows.filter fun r => r.id = id) = [] := by
  apply List.filter_eq_nil_iff.mpr
  intro r hr
  simpa using h r hr

/-- After the insert of `createPost`, the select of `getPost` on the assigned
id finds the inserted row and only it. -/
theorem filter_insertedDB (db : DB) (now : Timestamp) (post : Post) :
    ((insertedDB db now post).posts.filter fun r => r.id = db.nextRowid) =
      [⟨db.nextRowid, post.Title, post.Content, now.text⟩] := by
  have hnil := filter_id_eq_nil db.posts db.nextRowid
    (fun r hr => ne_of_lt (db.lt_nextRowid r hr))
  simp [insertedDB, List.filter_append, hnil]

/-- The text of a clock reading is never empty. -/
theorem Timestamp.text_ne_empty (t : Timestamp) : t.text ≠ "" := by
  intro h
  have h2 : t.text.data = [] := by rw [h]
  simp [Timestamp.text, Timestamp.chars, pad4] at h2

/-! ## The timestamp column -/

theorem isDigit_bounds (ch : Char) (h : ch.isDigit = true) : 48 ≤ ch.toNat ∧ ch.toNat ≤ 57 := by
  simp only [Char.isDigit, Bool.and_eq_true, decide_eq_true_eq] at h
  have h1 : (48 : UInt32).toNat ≤ ch.val.toNat := h.1
  have h2 : ch.val.toNat ≤ (57 : UInt32).toNat := h.2
  exact ⟨h1, h2⟩

theorem digitChar_digitValue (ch : Char) (h : ch.isDigit = true) :
    Nat.digitChar (digitValue ch) = ch := by
  obtain ⟨h1, h2⟩ := isDigit_bounds ch h
  have hc : ch = Char.ofNat ch.toNat := (Char.ofNat_toNat ch).symm
  unfold digitValue
  generalize ch.toNat = k at *
  subst hc
  interval_cases k <;> decide

theorem digitValue_digitChar (d : Nat) (h : d < 10) :
    (Nat.digitChar d).isDigit = true ∧ digitValue (Nat.digitChar d) = d := by
  interval_cases d <;> decide

/-- The RFC 3339 renderings of two times compare as their stored texts do. -/
theorem textLe_rfc3339 (a b : Timestamp) :
    textLe a.rfc3339Chars b.rfc3339Chars = textLe a.chars b.chars := by
  simp [Timestamp.rfc3339Chars, Timestamp.chars, pad2, pad4, textLe]


theorem digitValue_lt (ch : Char) (h : ch.isDigit = true) : digitValue ch < 10 := by
  obtain ⟨h1, h2⟩ := isDigit_bounds ch h
  unfold digitValue
  have : '0'.toNat = 48 := by decide
  omega

theorem pad2_digits (a b : Char) (ha : a.isDigit = true) (hb : b.isDigit = true) :
    pad2 (digitValue a * 10 + digitValue b) = [a, b] := by
  have h1 := digitValue_lt a ha
  have h2 := digitValue_lt b hb
  have e1 : (digitValue a * 10 + digitValue b) / 10 % 10 = digitValue a := by omega
  have e2 : (digitValue a * 10 + digitValue b) % 10 = digitValue b := by omega
  simp only [pad2, e1, e2, digitChar_digitValue a ha, digitChar_digitValue b hb]

theorem pad4_digits (a b c d : Char) (ha : a.isDigit = true) (hb : b.isDigit = true)
    (hc : c.isDigit = true) (hd : d.isDigit = true) :
    pad4 (digitValue a * 1000 + digitValue b * 100 + digitValue c * 10 + digitValue d) =
      [a, b, c, d] := by
  have h1 := digitValue_lt a ha
  have h2 := digitValue_lt b hb
  have h3 := digitValue_lt c hc
  have h4 := digitValue_lt d hd
  have e1 : (digitValue a * 1000 + digitValue b * 100 + digitValue c * 10 + digitValue d)
      / 1000 % 10 = digitValue a := by omega
  have e2 : (digitValue a * 1000 + digitValue b * 100 + digitValue c * 10 + digitValue d)
      / 100 % 10 = digitValue b := by omega
  have e3 : (digitValue a * 1000 + digitValue b * 100 + digitValue c * 10 + digitValue d)
      / 10 % 10 = digitValue c := by omega
  have e4 : (digitValue a * 1000 + digitValue b * 100 + digitValue c * 10 + digitValue d)
      % 10 = digitValue d := by omega
  simp only [pad4, e1, e2, e3, e4, digitChar_digitValue a ha, digitChar_digitValue b hb,
    digitChar_digitValue c hc, digitChar_digitValue d hd]

/-- A text that reads as a time is the text of that time. -/
theorem parseDatetime_chars (cs : List Char) (t : Timestamp) (h : parseDatetime cs = some t) :
    cs = t.chars := by
  unfold parseDatetime at h
  split at h
  · split at h
    · rename_i hcond
      obtain ⟨rfl, rfl, rfl, rfl, rfl, hd⟩ := hcond
      simp only [List.all_cons, List.all_nil, Bool.and_true, Bool.and_eq_true] at hd
      obtain ⟨hy1, hy2, hy3, hy4, hm1, hm2, hd1, hd2, hh1, hh2, hn1, hn2, hs1, hs2⟩ := hd
      injection h with h
      subst h
      simp only [Timestamp.chars, pad4_digits _ _ _ _ hy1 hy2 hy3 hy4, pad2_digits _ _ hm1 hm2,
        pad2_digits _ _ hd1 hd2, pad2_digits _ _ hh1 hh2, pad2_digits _ _ hn1 hn2,
        pad2_digits _ _ hs1 hs2, List.cons_append, List.nil_append]
    · exact absurd h (by simp)
  · exact absurd h (by simp)

/-- The text of a clock reading reads as that reading. -/
theorem parseDatetime_text (t : Timestamp) (hy : t.year ≤ 9999) (hm : t.month ≤ 99)
    (hd : t.day ≤ 99) (hh : t.hour ≤ 99) (hn : t.minute ≤ 99) (hs : t.second ≤ 99) :
    parseDatetime t.chars = some t := by
  have d := fun n (h : n < 10) => digitValue_digitChar n h
  have iy1 := d (t.year / 1000 % 10) (Nat.mod_lt _ (by decide))
  have iy2 := d (t.year / 100 % 10) (Nat.mod_lt _ (by decide))
  have iy3 := d (t.year / 10 % 10) (Nat.mod_lt _ (by decide))
  have iy4 := d (t.year % 10) (Nat.mod_lt _ (by decide))
  have im1 := d (t.month / 10 % 10) (Nat.mod_lt _ (by decide))
  have im2 := d (t.month % 10) (Nat.mod_lt _ (by decide))
  have id1 := d (t.day / 10 % 10) (Nat.mod_lt _ (by decide))
  have id2 := d (t.day % 10) (Nat.mod_lt _ (by decide))
  have ih1 := d (t.hour / 10 % 10) (Nat.mod_lt _ (by decide))
  have ih2 := d (t.hour % 10) (Nat.mod_lt _ (by decide))
  have in1 := d (t.minute / 10 % 10) (Nat.mod_lt _ (by decide))
  have in2 := d (t.minute % 10) (Nat.mod_lt _ (by decide))
  have is1 := d (t.second / 10 % 10) (Nat.mod_lt _ (by decide))
  have is2 := d (t.second % 10) (Nat.mod_lt _ (by decide))
  simp only [Timestamp.chars, pad4, pad2, List.cons_append, List.nil_append, parseDatetime,
    List.all_cons, List.all_nil, Bool.and_true, iy1.1, iy2.1, iy3.1, iy4.1, im1.1, im2.1,
    id1.1, id2.1, ih1.1, ih2.1, in1.1, in2.1, is1.1, is2.1, iy1.2, iy2.2, iy3.2, iy4.2, im1.2,
    im2.2, id1.2, id2.2, ih1.2, ih2.2, in1.2, in2.2, is1.2, is2.2, and_self, if_true,
    Bool.and_self]
  have e1 : t.year / 1000 % 10 * 1000 + t.year / 100 % 10 * 100 + t.year / 10 % 10 * 10 +
      t.year % 10 = t.year := by omega
  have e2 : t.month / 10 % 10 * 10 + t.month % 10 = t.month := by omega
  have e3 : t.day / 10 % 10 * 10 + t.day % 10 = t.day := by omega
  have e4 : t.hour / 10 % 10 * 10 + t.hour % 10 = t.hour := by omega
  have e5 : t.minute / 10 % 10 * 10 + t.minute % 10 = t.minute := by omega
  have e6 : t.second / 10 % 10 * 10 + t.second % 10 = t.second := by omega
  rw [e1, e2, e3, e4, e5, e6]

theorem rfc3339_ne_empty (t : Timestamp) : t.rfc3339 ≠ "" := by
  intro h
  have h2 : t.rfc3339.data = [] := by rw [h]
  simp [Timestamp.rfc3339, Timestamp.rfc3339Chars, pad4] at h2

/-- What `Scan` stores for the timestamp is never the empty text. -/
theorem scanDatetime_ne_empty (text : String) : scanDatetime text ≠ "" := by
  unfold scanDatetime
  split
  · split
    · exact rfc3339_ne_empty _
    · decide
  · decide

/-- The timestamp a valid reading of the clock left in the store is scanned as
its RFC 3339 rendering. -/
theorem scanDatetime_text (t : Timestamp) (h : t.valid = true) :
    scanDatetime t.text = t.rfc3339 := by
  have hv := h
  simp only [Timestamp.valid, decide_eq_true_eq] at hv
  obtain ⟨hy, -, hm, -, hd, hh, hn, hs⟩ := hv
  have hday : daysIn t.month t.year ≤ 31 := by
    unfold daysIn; split_ifs <;> omega
  have hp := parseDatetime_text t hy (by omega) (by omega) (by omega) (by omega) (by omega)
  simp only [scanDatetime, Timestamp.text, hp, h, if_true]

/-- On timestamps as the store assigns them, what `Scan` stores compares as the
stored texts do. -/
theorem textLe_scanDatetime (a b : String) (ha : isTimestampText a = true)
    (hb : isTimestampText b = true) :
    textLe (scanDatetime a).data (scanDatetime b).data = textLe a.data b.data := by
  unfold isTimestampText at ha hb
  unfold scanDatetime
  cases hpa : parseDatetime a.data with
  | none => simp [hpa] at ha
  | some ta =>
    cases hpb : parseDatetime b.data with
    | none => simp [hpb] at hb
    | some tb =>
      simp only [hpa] at ha
      simp only [hpb] at hb
      simp only [ha, hb, if_true, Timestamp.rfc3339]
      rw [parseDatetime_chars a.data ta hpa, parseDatetime_chars b.data tb hpb]
      exact textLe_rfc3339 ta tb

/-! ## Binding -/

theorem map_eq_ok {ε α β : Type} (f : α → β) (x : Except ε α) (y : β)
    (h : x.map f = .ok y) : ∃ a, x = .ok a ∧ f a = y := by
  cases x with
  | error e => simp [Except.map] at h
  | ok a => exact ⟨a, rfl, by simpa [Except.map] using h⟩

theorem decodeMember_Title (post post2 : Post) (key : String) (v : Json)
    (hk : keyMatches "title" key = false) (hd : decodeMember post key v = .ok post2) :
    post2.Title = post.Title := by
  unfold decodeMember at hd
  by_cases h1 : keyMatches "id" key = true
  · rw [if_pos h1] at hd
    obtain ⟨a, -, rfl⟩ := map_eq_ok _ _ _ hd
    rfl
  rw [if_neg h1, if_neg (by simp [hk])] at hd
  by_cases h3 : keyMatches "content" key = true
  · rw [if_pos h3] at hd
    obtain ⟨a, -, rfl⟩ := map_eq_ok _ _ _ hd
    rfl
  rw [if_neg h3] at hd
  by_cases h4 : keyMatches "created_at" key = true
  · rw [if_pos h4] at hd
    obtain ⟨a, -, rfl⟩ := map_eq_ok _ _ _ hd
    rfl
  rw [if_neg h4] at hd
  injection hd with hd
  rw [hd]

theorem decodeMember_CreatedAt (post post2 : Post) (key : String) (v : Json)
    (hk : keyMatches "created_at" key = false) (hd : decodeMember post key v = .ok post2) :
    post2.CreatedAt = post.CreatedAt := by
  unfold decodeMember at hd
  by_cases h1 : keyMatches "id" key = true
  · rw [if_pos h1] at hd
    obtain ⟨a, -, rfl⟩ := map_eq_ok _ _ _ hd
    rfl
  rw [if_neg h1] at hd
  by_cases h2 : keyMatches "title" key = true
  · rw [if_pos h2] at hd
    obtain ⟨a, -, rfl⟩ := map_eq_ok _ _ _ hd
    rfl
  rw [if_neg h2] at hd
  by_cases h3 : keyMatches "content" key = true
  · rw [if_pos h3] at hd
    obtain ⟨a, -, rfl⟩ := map_eq_ok _ _ _ hd
    rfl
  rw [if_neg h3, if_neg (by simp [hk])] at hd
  injection hd with hd
  rw [hd]

/-- A body object without a member for the title leaves the title as it was. -/
theorem decodeMembers_Title (members : List (String × Json)) (post post2 : Post)
    (hk : ∀ kv ∈ members, keyMatches "title" kv.1 = false)
    (hd : decodeMembers members post = .ok post2) : post2.Title = post.Title := by
  induction members generalizing post with
  | nil => simp [decodeMembers] at hd; rw [← hd]
  | cons kv rest ih =>
    obtain ⟨key, v⟩ := kv
    simp only [decodeMembers] at hd
    cases h : decodeMember post key v with
    | error e => simp [h] at hd
    | ok p =>
      simp only [h] at hd
      rw [ih p (fun kv hkv => hk kv (List.mem_cons_of_mem _ hkv)) hd]
      exact decodeMember_Title post p key v (hk (key, v) (List.mem_cons_self _ _)) h

/-- A body object without a member for `created_at` leaves the field as it was. -/
theorem decodeMembers_CreatedAt (members : List (String × Json)) (post post2 : Post)
    (hk : ∀ kv ∈ members, keyMatches "created_at" kv.1 = false)
    (hd : decodeMembers members post = .ok post2) : post2.CreatedAt = post.CreatedAt := by
  induction members generalizing post with
  | nil => simp [decodeMembers] at hd; rw [← hd]
  | cons kv rest ih =>
    obtain ⟨key, v⟩ := kv
    simp only [decodeMembers] at hd
    cases h : decodeMember post key v with
    | error e => simp [h] at hd
    | ok p =>
      simp only [h] at hd
      rw [ih p (fun kv hkv => hk kv (List.mem_cons_of_mem _ hkv)) hd]
      exact decodeMember_CreatedAt post p key v (hk (key, v) (List.mem_cons_self _ _)) h

/-- Binding an object: the result of decoding its members. -/
theorem ShouldBindJSON_obj (post : Post) (members : List (String × Json)) :
    ShouldBindJSON post (.json (.obj members)) = decodeMembers members post := by
  unfold ShouldBindJSON validate
  simp only [decodeJSON]
  cases decodeMembers members post <;> rfl

theorem decodeMember_Content (post post2 : Post) (key : String) (v : Json)
    (hk : keyMatches "content" key = false) (hd : decodeMember post key v = .ok post2) :
    post2.Content = post.Content := by
  unfold decodeMember at hd
  by_cases h1 : keyMatches "id" key = true
  · rw [if_pos h1] at hd
    obtain ⟨a, -, rfl⟩ := map_eq_ok _ _ _ hd
    rfl
  rw [if_neg h1] at hd
  by_cases h2 : keyMatches "title" key = true
  · rw [if_pos h2] at hd
    obtain ⟨a, -, rfl⟩ := map_eq_ok _ _ _ hd
    rfl
  rw [if_neg h2, if_neg (by simp [hk])] at hd
  by_cases h4 : keyMatches "created_at" key = true
  · rw [if_pos h4] at hd
    obtain ⟨a, -, rfl⟩ := map_eq_ok _ _ _ hd
    rfl
  rw [if_neg h4] at hd
  injection hd with hd
  rw [hd]

/-- A body object without a member for the content leaves the content as it
was. -/
theorem decodeMembers_Content (members : List (String × Json)) (post post2 : Post)
    (hk : ∀ kv ∈ members, keyMatches "content" kv.1 = false)
    (hd : decodeMembers members post = .ok post2) : post2.Content = post.Content := by
  induction members generalizing post with
  | nil => simp [decodeMembers] at hd; rw [← hd]
  | cons kv rest ih =>
    obtain ⟨key, v⟩ := kv
    simp only [decodeMembers] at hd
    cases h : decodeMember post key v with
    | error e => simp [h] at hd
    | ok p =>
      simp only [h] at hd
      rw [ih p (fun kv hkv => hk kv (List.mem_cons_of_mem _ hkv)) hd]
      exact decodeMember_Content post p key v (hk (key, v) (List.mem_cons_self _ _)) h

/-- The body of a Create request as the specification writes it, an object
with a title and a content, binds to the post of that title and content. -/
theorem ShouldBindJSON_title_content (title content : String) :
    ShouldBindJSON Post.zero (.json (.obj [("title", .str title), ("content", .str content)])) =
      .ok ⟨0, title, content, ""⟩ := by
  have h1 : keyMatches "id" "title" = false := by decide
  have h2 : keyMatches "title" "title" = true := by decide
  have h3 : keyMatches "id" "content" = false := by decide
  have h4 : keyMatches "title" "content" = false := by decide
  have h5 : keyMatches "content" "content" = true := by decide
  rw [ShouldBindJSON_obj]
  simp [decodeMembers, decodeMember, h1, h2, h3, h4, h5, decodeString, Except.map, Post.zero]

/-- A title member that is neither a string nor `null` does not bind. -/
theorem ShouldBindJSON_title_type (post : Post) (v : Json) (rest : List (String × Json))
    (hstr : ∀ s, v ≠ .str s) (hnull : v ≠ .null) :
    ∃ e, ShouldBindJSON post (.json (.obj (("title", v) :: rest))) = .error e := by
  have hid : keyMatches "id" "title" = false := by decide
  have ht : keyMatches "title" "title" = true := by decide
  have hdec : ∃ e, decodeString "title" post.Title v = .error e := by
    cases v with
    | null => exact absurd rfl hnull
    | str s => exact absurd rfl (hstr s)
    | bool b => exact ⟨_, rfl⟩
    | int n => exact ⟨_, rfl⟩
    | float l => exact ⟨_, rfl⟩
    | arr items => exact ⟨_, rfl⟩
    | obj members => exact ⟨_, rfl⟩
  obtain ⟨e, he⟩ := hdec
  refine ⟨e, ?_⟩
  rw [ShouldBindJSON_obj]
  simp [decodeMembers, decodeMember, hid, ht, he, Except.map]

/-! ## The handlers, statement by statement -/

theorem createPost_of_bound (c : Context) (post : Post) (hf : c.env.fault = none)
    (hb : ShouldBindJSON Post.zero c.reqBody = .ok post) :
    createPost c = { c with db := insertedDB c.db c.env.now post }.JSON 201
      (.post { post with ID := c.db.nextRowid }) := by
  simp [createPost, Context.BindJSON, hb, Exec, hf, ExecStmt.apply, ExecResult.LastInsertId,
    insertedDB, DB.nextRowid]

theorem getPost_of_bad_id (c : Context) (e : NumError) (h : Atoi (c.Param "id") = .error e) :
    getPost c = c.JSON 400 (.error "Invalid post ID") := by
  simp [getPost, h]

theorem getPost_of_no_row (c : Context) (id : Int) (hf : c.env.fault = none)
    (h : Atoi (c.Param "id") = .ok id) (hno : ∀ r ∈ c.db.posts, r.id ≠ id) :
    getPost c = { c with db := queriedDB c.db (.selectById id) }.JSON 404
      (.error "Post not found") := by
  have hnil := filter_id_eq_nil c.db.posts id hno
  simp [getPost, h, QueryRowScan, Query, hf, QueryStmt.rows, hnil, queriedDB]

theorem getPost_of_row (c : Context) (id : Int) (r : Row) (rest : List Row)
    (hf : c.env.fault = none) (h : Atoi (c.Param "id") = .ok id)
    (hrow : (c.db.posts.filter fun r => r.id = id) = r :: rest) :
    getPost c = { c with db := queriedDB c.db (.selectById id) }.JSON 200
      (.post ⟨r.id, r.title, r.content, scanDatetime r.created_at⟩) := by
  simp [getPost, h, QueryRowScan, Query, hf, QueryStmt.rows, hrow, scanRow, queriedDB]

theorem updatePost_of_bound (c : Context) (id : Int) (post : Post) (hf : c.env.fault = none)
    (h : Atoi (c.Param "id") = .ok id) (hb : ShouldBindJSON Post.zero c.reqBody = .ok post) :
    updatePost c = { c with db := updatedDB c.db id post }.JSON 200
      (.post { post with ID := id }) := by
  simp [updatePost, h, Context.BindJSON, hb, Exec, hf, ExecStmt.apply, updatedDB]

theorem deletePost_of_id (c : Context) (id : Int) (hf : c.env.fault = none)
    (h : Atoi (c.Param "id") = .ok id) :
    deletePost c = { c with db := deletedDB c.db id }.JSON 204 .null := by
  simp [deletePost, h, Exec, hf, ExecStmt.apply, deletedDB]

/-- With a failing driver every handler that reaches the store answers 500 with
the error of the driver. -/
theorem createPost_of_fault (c : Context) (post : Post) (e : String)
    (hw : c.written = false) (hf : c.env.fault = some e)
    (hb : ShouldBindJSON Post.zero c.reqBody = .ok post) :
    (createPost c).status = 500 ∧ (createPost c).body = c.body ++ [.error e] ∧
    (createPost c).db.posts = c.db.posts := by
  have hc : createPost c = { c with db :=
      { c.db with log := c.db.log ++ [Statement.exec (.insertPost post.Title post.Content)] } }.JSON
      500
      (.error e) := by
    simp [createPost, Context.BindJSON, hb, Exec, hf]
  refine ⟨?_, ?_, ?_⟩
  · rw [hc]; exact Context.JSON_status _ _ _ hw (by decide)
  · rw [hc, Context.JSON_body]; rfl
  · rw [hc, Context.JSON_db]

/-! ## Create and read back -/

/-- C1: for every store and every Create request whose body binds to a post
(in particular one carrying a non-empty title and a non-empty content),
`createPost` answers 201 with the post under the id the store assigned,
which is not negative, and a `getPost` on that id issued right afterwards
answers 200 with the post of the same id, title and content.  The driver is
taken not to fail on the two statements. -/
theorem createPost_then_getPost (c g : Context) (post : Post)
    (hw : c.written = false) (hf : c.env.fault = none)
    (hbind : ShouldBindJSON Post.zero c.reqBody = .ok post)
    (hg : g.db = (createPost c).db) (hgw : g.written = false) (hgf : g.env.fault = none)
    (hid : Atoi (g.Param "id") = .ok c.db.nextRowid) :
    (createPost c).status = 201 ∧
    (createPost c).body = c.body ++ [.post { post with ID := c.db.nextRowid }] ∧
    0 ≤ c.db.nextRowid ∧
    (getPost g).status = 200 ∧
    ∃ created_at, (getPost g).body =
      g.body ++ [.post ⟨c.db.nextRowid, post.Title, post.Content, created_at⟩] := by
  have hc := createPost_of_bound c post hf hbind
  have hdb : g.db = insertedDB c.db c.env.now post := by
    rw [hg, hc, Context.JSON_db]
  have hrow := filter_insertedDB c.db c.env.now post
  rw [← hdb] at hrow
  have hget := getPost_of_row g c.db.nextRowid _ [] hgf hid hrow
  refine ⟨?_, ?_, ?_, ?_, scanDatetime c.env.now.text, ?_⟩
  · rw [hc]; exact Context.JSON_status _ _ _ hw (by decide)
  · rw [hc, Context.JSON_body]; rfl
  · have := c.db.one_le_nextRowid; omega
  · rw [hget]; exact Context.JSON_status _ _ _ hgw (by decide)
  · rw [hget, Context.JSON_body]; rfl

/-- C1 at the request of the scenario of the specification: title `Hello`,
content `World`, on the empty store, then `GET /api/posts/1`. -/
theorem createPost_then_getPost_witness :
    (createPost (Context.new createDatabaseAndTable (clock 9 30 0) "POST" "/api/posts"
      helloWorld)).status = 201 ∧
    (createPost (Context.new createDatabaseAndTable (clock 9 30 0) "POST" "/api/posts"
      helloWorld)).body = [.post ⟨1, "Hello", "World", ""⟩] ∧
    (getPost ((Context.new storeHello (clock 9 30 1) "GET" "/api/posts/1" noBody).withId
      "1")).status = 200 :=
  have h := createPost_then_getPost
    (Context.new createDatabaseAndTable (clock 9 30 0) "POST" "/api/posts" helloWorld)
    ((Context.new storeHello (clock 9 30 1) "GET" "/api/posts/1" noBody).withId "1")
    ⟨0, "Hello", "World", ""⟩ rfl rfl (by decide) (by decide) rfl rfl (by decide)
  ⟨h.1, h.2.1, h.2.2.2.1⟩

/-- C5, as the code has it: the Post of the 201 response carries the id the
store assigned and the `created_at` of the request body as it was bound (the
empty text when the body has no such member: the row is not read back),
whereas a later `getPost` on the same id returns a `created_at` that is not
empty: the timestamp the store assigned at the insert, as `Scan` stores it
(the RFC 3339 rendering of the reading of the clock, when the reading is a
valid date and time).  The driver is taken not to fail on the two
statements. -/
theorem createPost_created_at (c g : Context) (post : Post)
    (hw : c.written = false) (hf : c.env.fault = none)
    (hbind : ShouldBindJSON Post.zero c.reqBody = .ok post)
    (hg : g.db = (createPost c).db) (hgf : g.env.fault = none)
    (hid : Atoi (g.Param "id") = .ok c.db.nextRowid) :
    (createPost c).status = 201 ∧
    (createPost c).body =
      c.body ++ [.post ⟨c.db.nextRowid, post.Title, post.Content, post.CreatedAt⟩] ∧
    (∀ members, c.reqBody = .json (.obj members) →
      (∀ kv ∈ members, keyMatches "created_at" kv.1 = false) → post.CreatedAt = "") ∧
    (∃ created_at, created_at ≠ "" ∧
      (getPost g).body =
        g.body ++ [.post ⟨c.db.nextRowid, post.Title, post.Content, created_at⟩] ∧
      created_at = scanDatetime c.env.now.text ∧
      (c.env.now.valid = true → created_at = c.env.now.rfc3339)) := by
  have hc := createPost_of_bound c post hf hbind
  have hdb : g.db = insertedDB c.db c.env.now post := by
    rw [hg, hc, Context.JSON_db]
  have hrow := filter_insertedDB c.db c.env.now post
  rw [← hdb] at hrow
  have hget := getPost_of_row g c.db.nextRowid _ [] hgf hid hrow
  refine ⟨?_, ?_, ?_, scanDatetime c.env.now.text, scanDatetime_ne_empty _, ?_, rfl,
    scanDatetime_text c.env.now⟩
  · rw [hc]; exact Context.JSON_status _ _ _ hw (by decide)
  · rw [hc, Context.JSON_body]; rfl
  · intro members hbody hk
    rw [hbody, ShouldBindJSON_obj] at hbind
    exact decodeMembers_CreatedAt members Post.zero post hk hbind
  · rw [hget, Context.JSON_body]; rfl

/-- C5 at the request of the scenario of the specification: the response to the
Create request has the empty `created_at`, the response to the later Get has
the timestamp of the insert. -/
theorem createPost_created_at_witness :
    (createPost (Context.new createDatabaseAndTable (clock 9 30 0) "POST" "/api/posts"
      helloWorld)).body = [.post ⟨1, "Hello", "World", ""⟩] ∧
    (getPost ((Context.new storeHello (clock 9 30 1) "GET" "/api/posts/1" noBody).withId
      "1")).body = [.post ⟨1, "Hello", "World", "2025-04-01T09:30:00Z"⟩] :=
  have h := createPost_created_at
    (Context.new createDatabaseAndTable (clock 9 30 0) "POST" "/api/posts" helloWorld)
    ((Context.new storeHello (clock 9 30 1) "GET" "/api/posts/1" noBody).withId "1")
    ⟨0, "Hello", "World", ""⟩ rfl rfl (by decide) (by decide) rfl (by decide)
  ⟨h.2.1, by decide⟩

/-- C5 as stated fails: a successful Create request whose body carries a
`created_at` member gets it back in the 201 response, not the empty text. -/
theorem createPost_echoes_created_at :
    (createPost (Context.new createDatabaseAndTable (clock 9 30 0) "POST" "/api/posts"
      (.json (.obj [("title", .str "Hello"), ("content", .str "World"),
        ("created_at", .str "1999-12-31 23:59:59")])))).status = 201 ∧
    (createPost (Context.new createDatabaseAndTable (clock 9 30 0) "POST" "/api/posts"
      (.json (.obj [("title", .str "Hello"), ("content", .str "World"),
        ("created_at", .str "1999-12-31 23:59:59")])))).body =
        [.post ⟨1, "Hello", "World", "1999-12-31 23:59:59"⟩] := by
  decide

/-! ## Read one post -/

/-- C6: for every path parameter that `strconv.Atoi` does not parse, `getPost`
answers 400 with the error object `Invalid post ID`, and the store is left
as it was, its statement log included: no query is issued. -/
theorem getPost_bad_id (c : Context) (e : NumError) (hw : c.written = false)
    (h : Atoi (c.Param "id") = .error e) :
    (getPost c).status = 400 ∧ (getPost c).status ≠ 200 ∧ (getPost c).status ≠ 500 ∧
    (getPost c).body = c.body ++ [.error "Invalid post ID"] ∧
    (getPost c).db = c.db := by
  have hs : (getPost c).status = 400 := by
    rw [getPost_of_bad_id c e h]; exact Context.JSON_status _ _ _ hw (by decide)
  refine ⟨hs, by rw [hs]; decide, by rw [hs]; decide, ?_, ?_⟩
  · rw [getPost_of_bad_id c e h, Context.JSON_body]; rfl
  · rw [getPost_of_bad_id c e h, Context.JSON_db]

/-- C6 at the path parameter `abc`. -/
theorem getPost_bad_id_witness :
    Atoi "abc" = .error .invalidSyntax ∧
    (getPost ((Context.new storeHello (clock 9 30 1) "GET" "/api/posts/abc" noBody).withId
      "abc")).status = 400 ∧
    (getPost ((Context.new storeHello (clock 9 30 1) "GET" "/api/posts/abc" noBody).withId
      "abc")).db = storeHello :=
  have h := getPost_bad_id
    ((Context.new storeHello (clock 9 30 1) "GET" "/api/posts/abc" noBody).withId "abc")
    .invalidSyntax rfl (by decide)
  ⟨by decide, h.1, h.2.2.2.2⟩

/-- C7: for every store and every path parameter that parses as an integer id
under which the store holds no row, `getPost` answers 404 with the error
object `Post not found`.  The driver is taken not to fail on the query. -/
theorem getPost_not_found (c : Context) (id : Int) (hw : c.written = false)
    (hf : c.env.fault = none) (h : Atoi (c.Param "id") = .ok id)
    (hno : ∀ r ∈ c.db.posts, r.id ≠ id) :
    (getPost c).status = 404 ∧ (getPost c).status ≠ 200 ∧ (getPost c).status ≠ 500 ∧
    (getPost c).body = c.body ++ [.error "Post not found"] ∧
    (getPost c).db.posts = c.db.posts := by
  have hs : (getPost c).status = 404 := by
    rw [getPost_of_no_row c id hf h hno]; exact Context.JSON_status _ _ _ hw (by decide)
  refine ⟨hs, by rw [hs]; decide, by rw [hs]; decide, ?_, ?_⟩
  · rw [getPost_of_no_row c id hf h hno, Context.JSON_body]; rfl
  · rw [getPost_of_no_row c id hf h hno, Context.JSON_db]; rfl

/-- C7 at the id 999999 on a store holding one post. -/
theorem getPost_not_found_witness :
    Atoi "999999" = .ok 999999 ∧
    (getPost ((Context.new storeHello (clock 9 30 1) "GET" "/api/posts/999999" noBody).withId
      "999999")).status = 404 :=
  have h := getPost_not_found
    ((Context.new storeHello (clock 9 30 1) "GET" "/api/posts/999999" noBody).withId "999999")
    999999 rfl rfl (by decide) (by decide)
  ⟨by decide, h.1⟩

/-! ## Delete and update -/

/-- C8: for every store and every integer id, `deletePost` answers 204 with
nothing written to the body, whether or not a row has that id; the rows left
are exactly the rows of the other ids, unchanged and in their order; and a
`getPost` on the same id issued afterwards answers 404.  The driver is taken
not to fail on the two statements. -/
theorem deletePost_then_getPost (c g : Context) (id : Int)
    (hw : c.written = false) (hf : c.env.fault = none)
    (h : Atoi (c.Param "id") = .ok id)
    (hg : g.db = (deletePost c).db) (hgw : g.written = false) (hgf : g.env.fault = none)
    (hid : Atoi (g.Param "id") = .ok id) :
    (deletePost c).status = 204 ∧ (deletePost c).body = c.body ∧
    (deletePost c).db.posts = c.db.posts.filter (fun r => r.id ≠ id) ∧
    (∀ r, r.id ≠ id → (r ∈ (deletePost c).db.posts ↔ r ∈ c.db.posts)) ∧
    (getPost g).status = 404 ∧ (getPost g).body = g.body ++ [.error "Post not found"] := by
  have hd := deletePost_of_id c id hf h
  have hposts : (deletePost c).db.posts = c.db.posts.filter (fun r => r.id ≠ id) := by
    rw [hd, Context.JSON_db]; rfl
  have hno : ∀ r ∈ g.db.posts, r.id ≠ id := by
    intro r hr
    rw [hg, hposts] at hr
    simpa using (List.mem_filter.mp hr).2
  have hget := getPost_of_no_row g id hgf hid hno
  refine ⟨?_, ?_, hposts, ?_, ?_, ?_⟩
  · rw [hd]; exact Context.JSON_status _ _ _ hw (by decide)
  · rw [hd, Context.JSON_body]; rfl
  · intro r hr
    rw [hposts, List.mem_filter]
    simp [hr]
  · rw [hget]; exact Context.JSON_status _ _ _ hgw (by decide)
  · rw [hget, Context.JSON_body]; rfl

/-- C8 at the id 1 on a store holding the posts 1 and 2, and at the id 7, which
the store does not hold. -/
theorem deletePost_then_getPost_witness :
    (deletePost ((Context.new storeTwo (clock 9 32 0) "DELETE" "/api/posts/1" noBody).withId
      "1")).status = 204 ∧
    (deletePost ((Context.new storeTwo (clock 9 32 0) "DELETE" "/api/posts/1" noBody).withId
      "1")).db.posts = [⟨2, "Second", "Post", "2025-04-01 09:31:00"⟩] ∧
    (deletePost ((Context.new storeTwo (clock 9 32 0) "DELETE" "/api/posts/7" noBody).withId
      "7")).status = 204 :=
  have h := deletePost_then_getPost
    ((Context.new storeTwo (clock 9 32 0) "DELETE" "/api/posts/1" noBody).withId "1")
    ((Context.new ⟨[⟨2, "Second", "Post", "2025-04-01 09:31:00"⟩], 2, [.exec (.deletePost 1)]⟩
      (clock 9 32 1) "GET" "/api/posts/1" noBody).withId "1")
    1 rfl rfl (by decide) (by decide) rfl rfl (by decide)
  have h7 := deletePost_then_getPost
    ((Context.new storeTwo (clock 9 32 0) "DELETE" "/api/posts/7" noBody).withId "7")
    ((Context.new { storeTwo with log := [.exec (.deletePost 7)] }
      (clock 9 32 1) "GET" "/api/posts/7" noBody).withId "7")
    7 rfl rfl (by decide) (by decide) rfl rfl (by decide)
  ⟨h.1, h.2.2.1.trans (by decide), h7.1⟩

/-- C9: for every store, every integer path id and every body that binds,
`updatePost` answers 200 with the submitted Post carrying the id of the
path; in the store only the title and the content of the rows with that id
change, their id and `created_at`, every other row, the order of the rows and
the AUTOINCREMENT counter stay; when no row has that id the rows are
unchanged and the answer is still 200.  The driver is taken not to fail. -/
theorem updatePost_frame (c : Context) (id : Int) (post : Post)
    (hw : c.written = false) (hf : c.env.fault = none)
    (h : Atoi (c.Param "id") = .ok id)
    (hbind : ShouldBindJSON Post.zero c.reqBody = .ok post) :
    (updatePost c).status = 200 ∧
    (updatePost c).body = c.body ++ [.post ⟨id, post.Title, post.Content, post.CreatedAt⟩] ∧
    (updatePost c).db.posts = c.db.posts.map (fun r =>
      if r.id = id then ⟨r.id, post.Title, post.Content, r.created_at⟩ else r) ∧
    (updatePost c).db.seq = c.db.seq ∧
    ((∀ r ∈ c.db.posts, r.id ≠ id) → (updatePost c).db.posts = c.db.posts) := by
  have hu := updatePost_of_bound c id post hf h hbind
  have hposts : (updatePost c).db.posts = c.db.posts.map (fun r =>
      if r.id = id then ⟨r.id, post.Title, post.Content, r.created_at⟩ else r) := by
    rw [hu, Context.JSON_db]; rfl
  refine ⟨?_, ?_, hposts, ?_, ?_⟩
  · rw [hu]; exact Context.JSON_status _ _ _ hw (by decide)
  · rw [hu, Context.JSON_body]; rfl
  · rw [hu, Context.JSON_db]; rfl
  · intro hno
    rw [hposts]
    conv_rhs => rw [← List.map_id c.db.posts]
    apply List.map_congr_left
    intro r hr
    simp [hno r hr]

/-- C9 at the id 7 on a store holding only the post 1: the answer is 200 and
the rows are unchanged. -/
theorem updatePost_frame_witness :
    (updatePost ((Context.new storeHello (clock 9 32 0) "PUT" "/api/posts/7"
      (.json (.obj [("title", .str "New"), ("content", .str "Text")]))).withId "7")).status =
      200 ∧
    (updatePost ((Context.new storeHello (clock 9 32 0) "PUT" "/api/posts/7"
      (.json (.obj [("title", .str "New"), ("content", .str "Text")]))).withId "7")).db.posts =
      storeHello.posts :=
  have h := updatePost_frame
    ((Context.new storeHello (clock 9 32 0) "PUT" "/api/posts/7"
      (.json (.obj [("title", .str "New"), ("content", .str "Text")]))).withId "7")
    7 ⟨0, "New", "Text", ""⟩ rfl rfl (by decide) (by decide)
  ⟨h.1, h.2.2.2.2 (by decide)⟩

/-! ## The order of the list -/

theorem textLe_total (a b : List Char) : textLe a b = true ∨ textLe b a = true := by
  induction a generalizing b with
  | nil => left; simp [textLe]
  | cons x xs ih =>
    cases b with
    | nil => right; simp [textLe]
    | cons y ys =>
      simp only [textLe]
      by_cases h1 : x.toNat < y.toNat
      · left; simp [h1]
      · by_cases h2 : y.toNat < x.toNat
        · right; simp [h2]
        · simpa [h1, h2] using ih ys

theorem textLe_trans (a b c : List Char) (hab : textLe a b = true) (hbc : textLe b c = true) :
    textLe a c = true := by
  induction a generalizing b c with
  | nil => simp [textLe]
  | cons x xs ih =>
    cases b with
    | nil => simp [textLe] at hab
    | cons y ys =>
      cases c with
      | nil => simp [textLe] at hbc
      | cons z zs =>
        simp only [textLe] at hab hbc ⊢
        by_cases h1 : x.toNat < y.toNat
        · by_cases h2 : y.toNat < z.toNat
          · have : x.toNat < z.toNat := by omega
            simp [this]
          · by_cases h3 : z.toNat < y.toNat
            · simp [h2, h3] at hbc
            · have : x.toNat < z.toNat := by omega
              simp [this]
        · by_cases h1b : y.toNat < x.toNat
          · simp [h1, h1b] at hab
          · simp only [h1, h1b, if_false] at hab
            by_cases h2 : y.toNat < z.toNat
            · have : x.toNat < z.toNat := by omega
              simp [this]
            · by_cases h3 : z.toNat < y.toNat
              · simp [h2, h3] at hbc
              · simp only [h2, h3, if_false] at hbc
                have e1 : ¬ x.toNat < z.toNat := by omega
                have e2 : ¬ z.toNat < x.toNat := by omega
                simp only [e1, e2, if_false]
                exact ih ys zs hab hbc

/-- The rows `ORDER BY created_at DESC` returns are sorted: no row is followed
by a row of a later `created_at`. -/
theorem orderByCreatedAtDesc_sorted (rows : List Row) :
    (orderByCreatedAtDesc rows).Pairwise createdAtGE := by
  haveI : IsTotal Row createdAtGE :=
    ⟨fun a b => textLe_total b.created_at.data a.created_at.data⟩
  haveI : IsTrans Row createdAtGE :=
    ⟨fun a b c hab hbc =>
      textLe_trans c.created_at.data b.created_at.data a.created_at.data hbc hab⟩
  exact List.sorted_insertionSort createdAtGE rows

/-- The rows `ORDER BY created_at DESC` returns are the rows of the table. -/
theorem orderByCreatedAtDesc_perm (rows : List Row) :
    (orderByCreatedAtDesc rows).Perm rows :=
  List.perm_insertionSort createdAtGE rows

theorem orderedInsert_last (a : Row) (l : List Row) (h : ∀ b ∈ l, ¬ createdAtGE a b) :
    l.orderedInsert createdAtGE a = l ++ [a] := by
  induction l with
  | nil => rfl
  | cons b l ih =>
    have hb : ¬ createdAtGE a b := h b (List.mem_cons_self _ _)
    simp only [List.orderedInsert, hb, if_false, List.cons_append]
    rw [ih (fun x hx => h x (List.mem_cons_of_mem _ hx))]

/-- Rows scanned in strictly increasing order of `created_at` are listed in the
reverse order. -/
theorem orderByCreatedAtDesc_of_increasing (rows : List Row)
    (h : rows.Pairwise fun a b => ¬ createdAtGE a b) :
    orderByCreatedAtDesc rows = rows.reverse := by
  induction rows with
  | nil => rfl
  | cons a l ih =>
    rw [List.pairwise_cons] at h
    unfold orderByCreatedAtDesc at ih ⊢
    rw [List.insertionSort, ih h.2, List.reverse_cons]
    exact orderedInsert_last a l.reverse (fun b hb => h.1 b (List.mem_reverse.mp hb))

theorem scanRows_some (rows : List Row) (acc : List Post) :
    scanRows rows (some acc) = .ok (some (acc ++ rows.map postOfRow)) := by
  induction rows generalizing acc with
  | nil => simp [scanRows]
  | cons r rest ih =>
    simp [scanRows, scanRow, appendPost, ih, postOfRow]

/-- The loop of `getPosts` ends with the nil slice when there is no row, and
with the slice of the scanned posts otherwise. -/
theorem scanRows_none (rows : List Row) :
    scanRows rows none = .ok (sliceOf (rows.map postOfRow)) := by
  cases rows with
  | nil => rfl
  | cons r rest =>
    simp [scanRows, scanRow, appendPost, scanRows_some, sliceOf, postOfRow]

theorem getPosts_of_query (c : Context) (hf : c.env.fault = none) :
    getPosts c = { c with db := queriedDB c.db .selectAll }.JSON 200
      (marshalPosts (sliceOf ((orderByCreatedAtDesc c.db.posts).map postOfRow))) := by
  simp [getPosts, Query, hf, QueryStmt.rows, scanRows_none, queriedDB]

theorem marshalPosts_sliceOf (ps : List Post) :
    marshalPosts (sliceOf ps) = if ps = [] then Body.null else Body.posts ps := by
  cases ps <;> rfl

/-- The rows of the store after a sequence of Create requests that all bind,
with a driver that does not fail: the `created_at` column holds, after the
values it held, the readings of the clock in the order of the requests. -/
theorem createAll_created_at (reqs : List (Env × ReqBody)) (db : DB)
    (hok : ∀ r ∈ reqs, r.1.fault = none ∧ ∃ p, ShouldBindJSON Post.zero r.2 = .ok p) :
    (createAll db reqs).posts.map (fun r => r.created_at) =
      db.posts.map (fun r => r.created_at) ++ reqs.map (fun r => r.1.now.text) := by
  induction reqs generalizing db with
  | nil => simp [createAll]
  | cons r rest ih =>
    obtain ⟨env, body⟩ := r
    obtain ⟨hf, p, hp⟩ := hok (env, body) (List.mem_cons_self _ _)
    have hc := createPost_of_bound (Context.new db env "POST" "/api/posts" body) p hf hp
    simp only [createAll]
    rw [ih _ (fun r hr => hok r (List.mem_cons_of_mem _ hr)), hc, Context.JSON_db]
    simp [insertedDB, Context.new]

/-- The body `getPosts` writes for the rows the query returned. -/
theorem marshalPosts_rows (rows : List Row) :
    marshalPosts (sliceOf (rows.map postOfRow)) =
      if rows = [] then Body.null else Body.posts (rows.map postOfRow) := by
  cases rows <;> rfl

/-- C2, as the code has it: `getPosts` answers 200 with all the posts of the
table, in the order of `ORDER BY created_at DESC`: no post is followed by a
post of a later stored `created_at`, and, when the timestamps in the table are
the store's own, nor by a post of a later returned `created_at`.  When the
rows were inserted at strictly increasing `created_at` the list is the
reverse of the insertion order; in particular, after a sequence of Create
requests on an empty table, served one after another at strictly increasing
readings of the clock, the list shows them most recent first.  (For an empty
table the body is the JSON `null`.)  The driver is taken not to fail. -/
theorem getPosts_ordered (c : Context) (hw : c.written = false) (hf : c.env.fault = none) :
    (getPosts c).status = 200 ∧
    ∃ rows : List Row,
      (getPosts c).body =
        c.body ++ [if rows = [] then Body.null else Body.posts (rows.map postOfRow)] ∧
      rows.Perm c.db.posts ∧
      rows.Pairwise (fun a b => textLe b.created_at.data a.created_at.data = true) ∧
      ((∀ r ∈ c.db.posts, isTimestampText r.created_at = true) →
        (rows.map postOfRow).Pairwise
          (fun p q => textLe q.CreatedAt.data p.CreatedAt.data = true)) ∧
      ((c.db.posts.Pairwise fun a b => textLe b.created_at.data a.created_at.data = false) →
        rows = c.db.posts.reverse) ∧
      (∀ (db0 : DB) (reqs : List (Env × ReqBody)), db0.posts = [] → c.db = createAll db0 reqs →
        (∀ r ∈ reqs, r.1.fault = none ∧ ∃ p, ShouldBindJSON Post.zero r.2 = .ok p) →
        (reqs.map fun r => r.1.now.text).Pairwise (fun s t => textLe t.data s.data = false) →
        (rows.map postOfRow).map (fun p => p.CreatedAt) =
          (reqs.map fun r => scanDatetime r.1.now.text).reverse) := by
  have hq := getPosts_of_query c hf
  have hsorted := orderByCreatedAtDesc_sorted c.db.posts
  have hperm := orderByCreatedAtDesc_perm c.db.posts
  have hstrict :
      (c.db.posts.Pairwise fun a b => textLe b.created_at.data a.created_at.data = false) →
      orderByCreatedAtDesc c.db.posts = c.db.posts.reverse := by
    intro h
    apply orderByCreatedAtDesc_of_increasing
    exact h.imp (fun hab => by simpa [createdAtGE] using hab)
  refine ⟨?_, orderByCreatedAtDesc c.db.posts, ?_, hperm, hsorted, ?_, hstrict, ?_⟩
  · rw [hq]; exact Context.JSON_status _ _ _ hw (by decide)
  · rw [hq, Context.JSON_body, marshalPosts_rows]; rfl
  · intro hts
    rw [List.pairwise_map]
    have hmem : ∀ r ∈ orderByCreatedAtDesc c.db.posts, isTimestampText r.created_at = true :=
      fun r hr => hts r (hperm.mem_iff.mp hr)
    refine hsorted.imp_of_mem ?_
    intro a b ha hb hab
    show textLe (scanDatetime b.created_at).data (scanDatetime a.created_at).data = true
    rw [textLe_scanDatetime _ _ (hmem b hb) (hmem a ha)]
    exact hab
  · intro db0 reqs h0 hdb hok hinc
    have hcol := createAll_created_at reqs db0 hok
    rw [← hdb, h0, List.map_nil, List.nil_append] at hcol
    have hrows : c.db.posts.Pairwise
        fun a b => textLe b.created_at.data a.created_at.data = false := by
      rw [← hcol, List.pairwise_map] at hinc
      exact hinc
    have hscan : (reqs.map fun r => scanDatetime r.1.now.text) =
        (c.db.posts.map fun r => r.created_at).map scanDatetime := by
      rw [hcol, List.map_map]; rfl
    rw [hstrict hrows, hscan, List.map_map, List.map_map, List.map_reverse]
    rfl

/-- C2 on a store holding two posts created one minute apart. -/
theorem getPosts_ordered_witness :
    (getPosts (Context.new storeTwo (clock 9 32 0) "GET" "/api/posts" noBody)).status = 200 ∧
    (getPosts (Context.new storeTwo (clock 9 32 0) "GET" "/api/posts" noBody)).body =
      [.posts [⟨2, "Second", "Post", "2025-04-01T09:31:00Z"⟩,
               ⟨1, "Hello", "World", "2025-04-01T09:30:00Z"⟩]] :=
  ⟨(getPosts_ordered (Context.new storeTwo (clock 9 32 0) "GET" "/api/posts" noBody)
      rfl rfl).1,
   by decide⟩

/-- C2 as stated fails: two posts created one after another within the same
second of the clock of the store are listed with the earlier one first, and
so are two posts when the clock stepped back between their inserts. -/
theorem getPosts_later_post_not_first :
    (getPosts (Context.new
      (createAll createDatabaseAndTable
        [(clock 9 30 0, .json (.obj [("title", .str "First"), ("content", .str "a")])),
         (clock 9 30 0, .json (.obj [("title", .str "Second"), ("content", .str "b")]))])
      (clock 9 30 5) "GET" "/api/posts" noBody)).body =
      [.posts [⟨1, "First", "a", "2025-04-01T09:30:00Z"⟩,
               ⟨2, "Second", "b", "2025-04-01T09:30:00Z"⟩]] ∧
    (getPosts (Context.new
      (createAll createDatabaseAndTable
        [(clock 9 30 7, .json (.obj [("title", .str "First"), ("content", .str "a")])),
         (clock 9 30 2, .json (.obj [("title", .str "Second"), ("content", .str "b")]))])
      (clock 9 30 9) "GET" "/api/posts" noBody)).body =
      [.posts [⟨1, "First", "a", "2025-04-01T09:30:07Z"⟩,
               ⟨2, "Second", "b", "2025-04-01T09:30:02Z"⟩]] := by
  decide

/-- C3 on the code: when the table has no rows, `getPosts` answers 200 and the
body it writes is the JSON value `null`, the encoding of the nil slice, and
not an array.  The driver is taken not to fail. -/
theorem getPosts_empty_table (c : Context) (hw : c.written = false)
    (hf : c.env.fault = none) (hempty : c.db.posts = []) :
    (getPosts c).status = 200 ∧ (getPosts c).body = c.body ++ [.null] ∧
    (getPosts c).body ≠ c.body ++ [.posts []] := by
  have hq := getPosts_of_query c hf
  have hb : (getPosts c).body = c.body ++ [.null] := by
    rw [hq, Context.JSON_body, hempty]; rfl
  refine ⟨?_, hb, ?_⟩
  · rw [hq]; exact Context.JSON_status _ _ _ hw (by decide)
  · rw [hb]; simp

/-- C3 on the empty store. -/
theorem getPosts_empty_table_witness :
    (getPosts (Context.new createDatabaseAndTable (clock 9 30 0) "GET" "/api/posts"
      noBody)).status = 200 ∧
    (getPosts (Context.new createDatabaseAndTable (clock 9 30 0) "GET" "/api/posts"
      noBody)).body = [.null] :=
  have h := getPosts_empty_table
    (Context.new createDatabaseAndTable (clock 9 30 0) "GET" "/api/posts" noBody) rfl rfl rfl
  ⟨h.1, h.2.1⟩

/-! ## The CORS middleware -/

theorem getHeader_setHeader (c : Context) (key value : String) :
    (c.setHeader key value).getHeader key = some value := by
  simp [Context.setHeader, Context.getHeader]

theorem find_filter_ne (l : List (String × String)) (key other : String) (h : other ≠ key) :
    (l.filter fun kv => kv.1 ≠ other).find? (fun kv => kv.1 = key) =
      l.find? (fun kv => kv.1 = key) := by
  induction l with
  | nil => rfl
  | cons kv rest ih =>
    by_cases ho : kv.1 = other
    · have hk : ¬ kv.1 = key := by rw [ho]; exact h
      rw [List.filter_cons_of_neg (by simpa using ho), List.find?_cons_of_neg _ (by simpa using hk)]
      exact ih
    · rw [List.filter_cons_of_pos (by simpa using ho)]
      by_cases hk : kv.1 = key
      · rw [List.find?_cons_of_pos _ (by simpa using hk),
          List.find?_cons_of_pos _ (by simpa using hk)]
      · rw [List.find?_cons_of_neg _ (by simpa using hk),
          List.find?_cons_of_neg _ (by simpa using hk)]
        exact ih

theorem getHeader_setHeader_ne (c : Context) (key other value : String) (h : other ≠ key) :
    (c.setHeader other value).getHeader key = c.getHeader key := by
  unfold Context.setHeader Context.getHeader
  simp only
  rw [List.find?_cons_of_neg _ (by simpa using h), find_filter_ne _ _ _ h]

/-- The four headers of the middleware are set whatever the header held. -/
theorem setCORSHeaders_headers (c : Context) :
    (setCORSHeaders c).getHeader "Access-Control-Allow-Origin" = some "*" ∧
    (setCORSHeaders c).getHeader "Access-Control-Allow-Credentials" = some "true" ∧
    (setCORSHeaders c).getHeader "Access-Control-Allow-Headers" = some allowHeaders ∧
    (setCORSHeaders c).getHeader "Access-Control-Allow-Methods" =
      some "POST, OPTIONS, GET, PUT, DELETE" := by
  unfold setCORSHeaders
  refine ⟨?_, ?_, ?_, ?_⟩
  · rw [getHeader_setHeader_ne _ _ _ _ (by decide), getHeader_setHeader_ne _ _ _ _ (by decide),
      getHeader_setHeader_ne _ _ _ _ (by decide), getHeader_setHeader]
  · rw [getHeader_setHeader_ne _ _ _ _ (by decide), getHeader_setHeader_ne _ _ _ _ (by decide),
      getHeader_setHeader]
  · rw [getHeader_setHeader_ne _ _ _ _ (by decide), getHeader_setHeader]
  · rw [getHeader_setHeader]

/-- C10: every OPTIONS request, on any path, registered or not, is answered by
the engine with 204, an empty body and the four Access-Control headers in the
header flushed to the client; the chain is aborted and the store is left as
it was, its statement log included, so no post handler ran.  In the
middleware itself an OPTIONS request never reaches the rest of the chain,
and for every other method the same four headers are set and the rest of the
chain is called. -/
theorem CORSMiddleware_preflight (db : DB) (env : Env) (path : String) (reqBody : ReqBody) :
    (serve db env "OPTIONS" path reqBody).status = 204 ∧
    (serve db env "OPTIONS" path reqBody).written = true ∧
    (serve db env "OPTIONS" path reqBody).body = [] ∧
    (serve db env "OPTIONS" path reqBody).sentHeader "Access-Control-Allow-Origin" = some "*" ∧
    (serve db env "OPTIONS" path reqBody).sentHeader "Access-Control-Allow-Credentials" =
      some "true" ∧
    (serve db env "OPTIONS" path reqBody).sentHeader "Access-Control-Allow-Headers" =
      some allowHeaders ∧
    (serve db env "OPTIONS" path reqBody).sentHeader "Access-Control-Allow-Methods" =
      some "POST, OPTIONS, GET, PUT, DELETE" ∧
    (serve db env "OPTIONS" path reqBody).aborted = true ∧
    (serve db env "OPTIONS" path reqBody).db = db ∧
    (∀ (next : Context → Context) (c : Context), c.method = "OPTIONS" →
      CORSMiddleware next c = (setCORSHeaders c).AbortWithStatus 204) ∧
    (∀ (next : Context → Context) (c : Context), c.method ≠ "OPTIONS" →
      CORSMiddleware next c = next (setCORSHeaders c) ∧
      (setCORSHeaders c).getHeader "Access-Control-Allow-Origin" = some "*" ∧
      (setCORSHeaders c).getHeader "Access-Control-Allow-Credentials" = some "true" ∧
      (setCORSHeaders c).getHeader "Access-Control-Allow-Headers" = some allowHeaders ∧
      (setCORSHeaders c).getHeader "Access-Control-Allow-Methods" =
        some "POST, OPTIONS, GET, PUT, DELETE") := by
  have hserve : serve db env "OPTIONS" path reqBody =
      (setCORSHeaders { Context.new db env "OPTIONS" path reqBody with status := 404 }).AbortWithStatus
        204 := by
    have htree : (trees.find? fun t => t.1 = (Context.new db env "OPTIONS" path reqBody).method)
        = none := by
      simp [trees, Context.new]
    unfold serve handleHTTPRequest
    rw [htree]
    rfl
  have hh := setCORSHeaders_headers
    { Context.new db env "OPTIONS" path reqBody with status := 404 }
  have hsent : ∀ key, (serve db env "OPTIONS" path reqBody).sentHeader key =
      (setCORSHeaders { Context.new db env "OPTIONS" path reqBody with status := 404 }).getHeader
        key := by
    intro key; rw [hserve]; rfl
  refine ⟨?_, ?_, ?_, ?_, ?_, ?_, ?_, ?_, ?_, ?_, ?_⟩
  · rw [hserve]; rfl
  · rw [hserve]; rfl
  · rw [hserve]; rfl
  · rw [hsent]; exact hh.1
  · rw [hsent]; exact hh.2.1
  · rw [hsent]; exact hh.2.2.1
  · rw [hsent]; exact hh.2.2.2
  · rw [hserve]; rfl
  · rw [hserve]; rfl
  · intro next c hm
    have : (setCORSHeaders c).method = "OPTIONS" := hm
    simp [CORSMiddleware, this]
  · intro next c hm
    have : (setCORSHeaders c).method ≠ "OPTIONS" := hm
    exact ⟨by simp [CORSMiddleware, this], setCORSHeaders_headers c⟩

/-! ## The routes of `main` -/

theorem stripLead_append (lead rest : List Char) : stripLead lead (lead ++ rest) = some rest := by
  induction lead with
  | nil => cases rest <;> rfl
  | cons p ps ih => simp [stripLead, ih]

theorem params_withId (seg : String) (hne : seg ≠ "") (hslash : '/' ∉ seg.data) :
    (Pattern.param "/api/posts/" "id").params ("/api/posts/" ++ seg) = some [("id", seg)] := by
  have hdata : seg.data ≠ [] := by
    intro h
    apply hne
    cases seg
    simp_all
  simp only [Pattern.params, String.data_append, stripLead_append]
  simp [hdata, hslash]

theorem params_fixed_withId (seg : String) :
    (Pattern.fixed "/api/posts").params ("/api/posts/" ++ seg) = none := by
  have h : "/api/posts/" ++ seg ≠ "/api/posts" := by
    intro h
    have hl := congrArg String.length h
    simp [String.length_append] at hl
    have : ("/api/posts/" : String).length = 11 := by decide
    have : ("/api/posts" : String).length = 10 := by decide
    omega
  simp [Pattern.params, h]

/-- A GET request on `/api/posts/` followed by one segment reaches `getPost`
with the segment as the parameter `id`, after the middleware has set its
headers and before anything is written. -/
theorem serve_getPost (db : DB) (env : Env) (seg : String) (reqBody : ReqBody)
    (hne : seg ≠ "") (hslash : '/' ∉ seg.data) :
    serve db env "GET" ("/api/posts/" ++ seg) reqBody =
      (getPost (setCORSHeaders
        ((Context.new db env "GET" ("/api/posts/" ++ seg) reqBody).withId seg))).WriteHeaderNow := by
  have htree : (trees.find? fun t => t.1 =
      (Context.new db env "GET" ("/api/posts/" ++ seg) reqBody).method) =
      some ("GET", [(.fixed "/api/posts", getPosts), (.param "/api/posts/" "id", getPost)]) := by
    simp [trees, Context.new]
  unfold serve handleHTTPRequest
  rw [htree]
  simp only [getValue, findRoute, Context.new, params_fixed_withId seg,
    params_withId seg hne hslash]
  rfl

/-- A PUT request on `/api/posts/` followed by one segment reaches `updatePost`
with the segment as the parameter `id`. -/
theorem serve_updatePost (db : DB) (env : Env) (seg : String) (reqBody : ReqBody)
    (hne : seg ≠ "") (hslash : '/' ∉ seg.data) :
    serve db env "PUT" ("/api/posts/" ++ seg) reqBody =
      (updatePost (setCORSHeaders
        ((Context.new db env "PUT" ("/api/posts/" ++ seg) reqBody).withId seg))).WriteHeaderNow := by
  have htree : (trees.find? fun t => t.1 =
      (Context.new db env "PUT" ("/api/posts/" ++ seg) reqBody).method) =
      some ("PUT", [(.param "/api/posts/" "id", updatePost)]) := by
    simp [trees, Context.new]
  unfold serve handleHTTPRequest
  rw [htree]
  simp only [getValue, findRoute, Context.new, params_withId seg hne hslash]
  rfl

/-- A DELETE request on `/api/posts/` followed by one segment reaches
`deletePost` with the segment as the parameter `id`. -/
theorem serve_deletePost (db : DB) (env : Env) (seg : String) (reqBody : ReqBody)
    (hne : seg ≠ "") (hslash : '/' ∉ seg.data) :
    serve db env "DELETE" ("/api/posts/" ++ seg) reqBody =
      (deletePost (setCORSHeaders
        ((Context.new db env "DELETE" ("/api/posts/" ++ seg) reqBody).withId seg))).WriteHeaderNow := by
  have htree : (trees.find? fun t => t.1 =
      (Context.new db env "DELETE" ("/api/posts/" ++ seg) reqBody).method) =
      some ("DELETE", [(.param "/api/posts/" "id", deletePost)]) := by
    simp [trees, Context.new]
  unfold serve handleHTTPRequest
  rw [htree]
  simp only [getValue, findRoute, Context.new, params_withId seg hne hslash]
  rfl

/-- A POST request on `/api/posts` reaches `createPost`, and a GET request on
`/api/posts` reaches `getPosts`. -/
theorem serve_collection (db : DB) (env : Env) (reqBody : ReqBody) :
    serve db env "POST" "/api/posts" reqBody =
      (createPost (setCORSHeaders
        (Context.new db env "POST" "/api/posts" reqBody))).WriteHeaderNow ∧
    serve db env "GET" "/api/posts" reqBody =
      (getPosts (setCORSHeaders
        (Context.new db env "GET" "/api/posts" reqBody))).WriteHeaderNow := by
  constructor <;> rfl

/-! ## The scenario of the specification, through the engine -/

/-- The store after `POST /api/posts` with title `Hello` and content `World` on
the empty store. -/
theorem scenario_create :
    (serve createDatabaseAndTable (clock 9 30 0) "POST" "/api/posts"
      helloWorld).status = 201 ∧
    (serve createDatabaseAndTable (clock 9 30 0) "POST" "/api/posts"
      helloWorld).body =
        [.post ⟨1, "Hello", "World", ""⟩] ∧
    (serve createDatabaseAndTable (clock 9 30 0) "POST" "/api/posts"
      helloWorld).db.posts =
        [⟨1, "Hello", "World", "2025-04-01 09:30:00"⟩] := by
  decide

/-- The answer to `GET /api/posts/1` on the store of `scenario_create`, and to
the ids `abc` and `999999`. -/
theorem scenario_get :
    (serve storeHello (clock 9 30 4) "GET" "/api/posts/1" noBody).status = 200 ∧
    (serve storeHello (clock 9 30 4) "GET" "/api/posts/1" noBody).body =
      [.post ⟨1, "Hello", "World", "2025-04-01T09:30:00Z"⟩] ∧
    (serve storeHello (clock 9 30 4) "GET" "/api/posts/abc" noBody).status = 400 ∧
    (serve storeHello (clock 9 30 4) "GET" "/api/posts/999999" noBody).status = 404 := by
  decide

end Blog
